import Mathlib

/-!
Verification of the enderpy Python front end (lexer, parser, symbol table).

This file gives a shallow embedding, in Lean, of the code under
`src/parser/src/lexer/mod.rs`, `src/parser/src/parser/parser.rs`,
`src/parser/src/parser/ast.rs` and `src/typechecker/src/symbol_table.rs`,
and proves or refutes the specification claims about that code.

Modelling conventions, fixed once here:

* Source text is a `List Char`.  The Rust lexer walks the source by byte
  offset (`self.current`, advanced by `char::len_utf8`); the embedding keeps
  both a character index `pos` (used to read the next character) and the byte
  offset `current` (advanced by `utf8Len`, the exact `len_utf8` function), so
  every position stored in a token is the same byte offset the Rust code
  stores.  Rust byte-range slices of the source (always taken at character
  boundaries) are rendered as the corresponding character-index slices.
* Rust `Vec` stacks (the indent stack, the f-string stack) push and pop at
  the end of the vector and read the top with `last()`.  The embedding stores
  the same stack with its top first, so `Vec::push` is `List.cons`,
  `Vec::pop` is `List.tail`, `Vec::last` is `List.head?`, and iterating the
  vector in reverse (`iter().rev()`, used by `Lexer::match_indentation`) is
  walking the embedded list forward.
* Machine integers: `u8` fields (`next_token_is_dedent`, the dedent count)
  are `Nat` reduced mod 256 where the code writes to them; `u16 current_line`
  is `Nat` reduced mod 65536; `i8 nesting` and `i8 inside_fstring_bracket`
  are `Int` (no stated theorem distinguishes a wrapped value of these two
  counters from the unwrapped one, and no claim exercises inputs with 2^7
  unmatched brackets).
* Fallible Rust code (`Result`) returns `Except`; mutation is explicit state
  passing: a Rust method `&mut self -> T` becomes `Lexer → T × Lexer`.
* Rust loops become recursive functions, with either a structural measure
  (`source.length - pos`) or, for the whitespace-skipping recursion of
  `next_token` and for the parser's mutually recursive productions, an
  explicit fuel argument.
-/

set_option maxHeartbeats 1000000

namespace Enderpy

/-- UTF-8 byte length of a character: the exact `char::len_utf8` of Rust. -/
def utf8Len (c : Char) : Nat :=
  if c.toNat < 0x80 then 1
  else if c.toNat < 0x800 then 2
  else if c.toNat < 0x10000 then 3
  else 4

theorem utf8Len_pos (c : Char) : 0 < utf8Len c := by
  unfold utf8Len; split <;> [simp; split <;> [simp; split <;> simp]]

/-- The single-quote character, written by code point to keep the source of
this file free of quote-escape sequences. -/
def singleQuote : Char := Char.ofNat 39

/-- The backtick character, written by code point. -/
def backTickChar : Char := Char.ofNat 96

/-- Token kinds, from the `Kind` enum used throughout
`src/parser/src/lexer/mod.rs` and `src/parser/src/parser/parser.rs`.
Modelled from the spec: the defining file `token.rs` is not under `src/`;
the variants are exactly the ones referenced by the lexer and parser sources
and listed by the spec (literals, identifiers, operators, delimiters,
structural tokens, f-string sub-tokens). -/
inductive Kind where
  | Identifier | Integer | Binary | Octal | Hexadecimal
  | PointFloat | ExponentFloat | ImaginaryInteger | ImaginaryPointFloat
  | ImaginaryExponentFloat
  | StringLiteral | RawBytes | Bytes | Unicode
  | FStringStart | RawFStringStart | FStringMiddle | FStringEnd
  | Plus | Minus | Mul | Div | IntDiv | Mod | Pow | MatrixMul
  | AddAssign | SubAssign | MulAssign | DivAssign | IntDivAssign
  | ModAssign | PowAssign | MatrixMulAssign
  | BitAnd | BitOr | BitXor | BitNot
  | BitAndAssign | BitOrAssign | BitXorAssign
  | ShiftLeftAssign | ShiftRightAssign | LeftShift | RightShift
  | Walrus | Colon | NotEq | Less | LessEq | Greater | GreaterEq
  | Eq | Assign | Arrow
  | LeftParen | RightParen | LeftBrace | RightBrace
  | LeftBracket | RightBracket
  | Comma | Dot | Ellipsis | SemiColon | BackSlash | Dollar
  | QuestionMark | BackTick
  | False | None | True | And | As | Assert | Async | Await | Break
  | Class | Continue | Def | Del | Elif | Else | Except | Finally
  | For | From | Global | If | Import | In | Is | Lambda | Nonlocal
  | Not | Or | Pass | Raise | Return | Try | While | With | Yield
  | Indent | Dedent | NewLine | WhiteSpace | Comment | Eof | Error
  deriving DecidableEq, Repr

/-- Token payloads: `TokenValue` is `None | Str(String) | Number(String) |
Indent(u8)`.  Modelled from the spec (`token.rs` is not under `src/`). -/
inductive TokenValue where
  | none
  | str (s : String)
  | number (s : String)
  | indent (n : Nat)
  deriving DecidableEq, Repr

/-- Rendering of a `TokenValue` as a string (the `Display` impl used by the
parser through `value.to_string()`).  Modelled from the spec: `token.rs` is
not under `src/`; the payload-carrying variants render their payload, which
is the only behaviour the parser relies on (identifier names, the soft
keywords `type` and `match`). -/
def TokenValue.toString : TokenValue → String
  | .none => "None"
  | .str s => s
  | .number s => s
  | .indent n => Nat.repr n

/-- A token: `{kind, value, start, end}`.  The Rust field `end` is named
`stop` here (`end` is reserved in Lean); both are byte offsets. -/
structure Token where
  kind : Kind
  value : TokenValue
  start : Nat
  stop : Nat
  deriving DecidableEq, Repr

/-- Lexical errors, from the `LexError` variants raised in
`src/parser/src/lexer/mod.rs`.  Modelled from the spec for the variant
carrier types: the defining file `error.rs` is not under `src/`. -/
inductive LexError where
  | StringNotTerminated
  | InvalidDigitInBinaryLiteral (c : Char)
  | InvalidDigitInOctalLiteral (c : Char)
  | InvalidDigitInHexadecimalLiteral (c : Char)
  | InvalidDigitInDecimalLiteral
  | UnindentDoesNotMatchAnyOuterIndentationLevel
  deriving DecidableEq, Repr

/-- The display string of a lexical error (Rust `e.to_string()`), stored in
the `Error` token's value.  Modelled from the spec: `error.rs` is not under
`src/`; the exact wording is not load-bearing for any claim, only that the
token carries the message of the error that occurred. -/
def LexError.toString : LexError → String
  | .StringNotTerminated => "string is not terminated"
  | .InvalidDigitInBinaryLiteral c => "invalid digit in binary literal: " ++ String.mk [c]
  | .InvalidDigitInOctalLiteral c => "invalid digit in octal literal: " ++ String.mk [c]
  | .InvalidDigitInHexadecimalLiteral c => "invalid digit in hexadecimal literal: " ++ String.mk [c]
  | .InvalidDigitInDecimalLiteral => "invalid digit in decimal literal"
  | .UnindentDoesNotMatchAnyOuterIndentationLevel =>
      "unindent does not match any outer indentation level"

/-- The lexer state, from `struct Lexer` (`lexer/mod.rs` lines 8-34).
`source` never changes; `pos` is the character index matching the byte
offset `current` (see the conventions in the file header). -/
structure Lexer where
  source : List Char
  pos : Nat
  current : Nat
  current_line : Nat
  start_of_line : Bool
  /-- The indent stack, top first (Rust: `Vec` with top at the end). -/
  indent_stack : List Nat
  nesting : Int
  /-- The f-string terminator stack, top first. -/
  fstring_stack : List String
  inside_fstring_bracket : Int
  next_token_is_dedent : Nat
  deriving DecidableEq, Repr

namespace Lexer

/-- `Lexer::new`. -/
def new (source : String) : Lexer where
  source := source.data
  pos := 0
  current := 0
  current_line := 1
  start_of_line := true
  indent_stack := [0]
  nesting := 0
  fstring_stack := []
  inside_fstring_bracket := 0
  next_token_is_dedent := 0

/-- `Lexer::peek`: the character at the current position. -/
def peek (s : Lexer) : Option Char := s.source.get? s.pos

/-- `Lexer::double_peek`. -/
def double_peek (s : Lexer) : Option Char := s.source.get? (s.pos + 1)

/-- `Lexer::triple_peek`. -/
def triple_peek (s : Lexer) : Option Char := s.source.get? (s.pos + 2)

/-- `Lexer::next`: consume one character, advancing the byte offset by its
UTF-8 length. -/
def next (s : Lexer) : Option Char × Lexer :=
  match s.peek with
  | some c => (some c, { s with pos := s.pos + 1, current := s.current + utf8Len c })
  | none => (none, s)

/-- `Lexer::double_next`: `self.next(); self.next()` (returns the second). -/
def double_next (s : Lexer) : Option Char × Lexer :=
  (s.next).2.next

/-- Remaining length, the termination measure of the lexer's loops. -/
def msr (s : Lexer) : Nat := s.source.length - s.pos

theorem peek_some_pos_lt {s : Lexer} {c : Char} (h : s.peek = some c) :
    s.pos < s.source.length := by
  by_contra hge
  have : s.source.get? s.pos = Option.none := List.get?_eq_none.mpr (Nat.le_of_not_lt hge)
  rw [peek] at h; rw [this] at h; cases h

theorem next_snd_source (s : Lexer) : (s.next).2.source = s.source := by
  unfold next; cases h : s.peek <;> simp

theorem next_snd_pos_le (s : Lexer) : s.pos ≤ (s.next).2.pos := by
  unfold next; cases h : s.peek <;> simp

theorem next_snd_msr_le (s : Lexer) : (s.next).2.msr ≤ s.msr := by
  unfold msr
  rw [next_snd_source]
  exact Nat.sub_le_sub_left (next_snd_pos_le s) _

theorem next_msr_lt {s : Lexer} {c : Char} (h : s.peek = some c) :
    (s.next).2.msr < s.msr := by
  have hlt := peek_some_pos_lt h
  unfold msr next
  rw [h]
  simp only
  omega

theorem next_fst_msr_lt {s : Lexer} {c : Char} (h : s.next = (some c, (s.next).2)) :
    (s.next).2.msr < s.msr := by
  unfold next at h
  cases hp : s.peek with
  | none => rw [hp] at h; cases h
  | some d => exact next_msr_lt hp

theorem double_next_snd_msr_le (s : Lexer) : (s.double_next).2.msr ≤ s.msr := by
  unfold double_next
  exact le_trans (next_snd_msr_le _) (next_snd_msr_le s)

/-- `fn match_whitespace(c: char) -> bool`: Unicode whitespace other than
line terminators.  `char::is_whitespace` is the Unicode `White_Space`
property, written out here by code point. -/
def match_whitespace (c : Char) : Bool :=
  (c = ' ' || c.toNat = 0x09 || c.toNat = 0x0b || c.toNat = 0x0c
    || c.toNat = 0x85 || c.toNat = 0xa0 || c.toNat = 0x1680
    || (0x2000 ≤ c.toNat && c.toNat ≤ 0x200a)
    || c.toNat = 0x2028 || c.toNat = 0x2029 || c.toNat = 0x202f
    || c.toNat = 0x205f || c.toNat = 0x3000)

/-- Unicode identifier-start/continue test used for non-ASCII identifier
characters.  Modelled from the spec: the tables live in the external
`unicode_id_start` crate; the embedding accepts any non-ASCII code point.
No settled claim depends on which non-ASCII code points continue an
identifier (the ASCII cases are handled explicitly by `extract_id`). -/
def is_id_start_and_continue (c : Char) : Bool := 0x80 ≤ c.toNat

theorem next_eq_some_msr_lt {s s' : Lexer} {c : Char} (h : s.next = (some c, s')) :
    s'.msr < s.msr := by
  unfold next at h
  cases hp : s.peek with
  | none => rw [hp] at h; cases h
  | some d =>
    rw [hp] at h
    have hlt := peek_some_pos_lt hp
    cases h
    unfold msr
    simp only
    omega

/-- `Lexer::extract_raw_token_value`: the source slice between the byte
offset at which the current token started and the current byte offset.  The
embedding receives the character index `startPos` matching that byte offset
(both are recorded together by `next_token`); the slice is identical. -/
def extract_raw_token_value (s : Lexer) (startPos : Nat) : String :=
  String.mk ((s.source.drop startPos).take (s.pos - startPos))

/-- The comment-skipping loop in `next_kind`'s `'#'` arm: consume until a
line terminator is peeked.  Each iteration consumes a character, so the
fuel `s.msr + 1` supplied at the call site covers every run; all lexer
loops below follow this fuel convention (structural recursion keeps the
definitions computable by the kernel). -/
def commentLoop : Nat → Lexer → Lexer
  | 0, s => s
  | fuel + 1, s =>
    match s.peek with
    | Option.none => s
    | some c =>
      if c = '\n' ∨ c = '\r' then s
      else commentLoop fuel (s.next).2

/-- `Lexer::match_keyword`. -/
def match_keyword (ident : String) : Kind :=
  if ident = "False" then .False else if ident = "None" then .None
  else if ident = "True" then .True else if ident = "and" then .And
  else if ident = "as" then .As else if ident = "assert" then .Assert
  else if ident = "async" then .Async else if ident = "await" then .Await
  else if ident = "break" then .Break else if ident = "class" then .Class
  else if ident = "continue" then .Continue else if ident = "def" then .Def
  else if ident = "del" then .Del else if ident = "elif" then .Elif
  else if ident = "else" then .Else else if ident = "except" then .Except
  else if ident = "finally" then .Finally else if ident = "for" then .For
  else if ident = "from" then .From else if ident = "global" then .Global
  else if ident = "if" then .If else if ident = "import" then .Import
  else if ident = "in" then .In else if ident = "is" then .Is
  else if ident = "lambda" then .Lambda else if ident = "nonlocal" then .Nonlocal
  else if ident = "not" then .Not else if ident = "or" then .Or
  else if ident = "pass" then .Pass else if ident = "raise" then .Raise
  else if ident = "return" then .Return else if ident = "try" then .Try
  else if ident = "while" then .While else if ident = "with" then .With
  else if ident = "yield" then .Yield
  else .Identifier

/-- The accumulation loop of `Lexer::extract_id` (`acc` holds the identifier
collected so far, in order). -/
def extractIdLoop : Nat → List Char → Lexer → String × Lexer
  | 0, acc, s => (String.mk acc, s)
  | fuel + 1, acc, s =>
    match s.peek with
    | Option.none => (String.mk acc, s)
    | some c =>
      if ('a' ≤ c ∧ c ≤ 'z') ∨ ('A' ≤ c ∧ c ≤ 'Z') ∨ ('0' ≤ c ∧ c ≤ '9') ∨ c = '_' then
        extractIdLoop fuel (acc ++ [c]) (s.next).2
      else if is_id_start_and_continue c then
        extractIdLoop fuel (acc ++ [c]) (s.next).2
      else (String.mk acc, s)

/-- `Lexer::extract_id`. -/
def extract_id (id_start : Char) (s : Lexer) : String × Lexer :=
  extractIdLoop (s.msr + 1) [id_start] s

/-- The single-quote scanning loop of `Lexer::skip_to_str_end`: consume
until an unescaped occurrence of `str_start` (`last` is `last_read_char`). -/
def skipStrSingle : Nat → Char → Char → Lexer → Except LexError Unit × Lexer
  | 0, _, _, s => (.error .StringNotTerminated, s)
  | fuel + 1, str_start, last, s =>
    match s.next with
    | (Option.none, s') => (.error .StringNotTerminated, s')
    | (some c, s') =>
      if c = str_start ∧ last ≠ '\\' then (.ok (), s')
      else skipStrSingle fuel str_start c s' 

/-- The triple-quote scanning loop of `Lexer::skip_to_str_end`: consume
until an unescaped full three-character terminator. -/
def skipStrTriple : Nat → Char → Char → Lexer → Except LexError Unit × Lexer
  | 0, _, _, s => (.error .StringNotTerminated, s)
  | fuel + 1, str_start, last, s =>
    match s.next with
    | (Option.none, s') => (.error .StringNotTerminated, s')
    | (some c, s') =>
      if c = str_start ∧ s'.peek = some str_start ∧ s'.double_peek = some str_start ∧ last ≠ '\\'
      then (.ok (), (s'.double_next).2)
      else skipStrTriple fuel str_start c s' 

/-- `Lexer::skip_to_str_end` (the opening quote is already consumed;
`last_read_char` starts as the quote itself). -/
def skip_to_str_end (str_start : Char) (s : Lexer) : Except LexError Unit × Lexer :=
  if s.peek = some str_start ∧ s.double_peek = some str_start then
    skipStrTriple (s.msr + 1) str_start str_start (s.next).2
  else
    skipStrSingle (s.msr + 1) str_start str_start s

/-- `Lexer::create_f_string_start`. -/
def create_f_string_start (str_start : Char) (s : Lexer) : String × Lexer :=
  if s.peek = some str_start ∧ s.double_peek = some str_start then
    (String.mk [str_start, str_start, str_start], (s.double_next).2)
  else (String.mk [str_start], s)

/-- `Lexer::match_str`: string-prefix dispatch on the identifier-start
character (`r/R`, `b/B`, `f/F`, `u/U` followed by a quote). -/
def match_str (id_start : Char) (s : Lexer) : Except LexError (Option Kind) × Lexer :=
  if id_start = 'r' ∨ id_start = 'R' then
    match s.peek with
    | some c =>
      if c = 'b' ∨ c = 'B' then
        match s.double_peek with
        | some q =>
          if q = '"' ∨ q = singleQuote then
            let s := (s.double_next).2
            match skip_to_str_end q s with
            | (.ok _, s') => (.ok (some .RawBytes), s')
            | (.error e, s') => (.error e, s')
          else (.ok Option.none, s)
        | Option.none => (.ok Option.none, s)
      else if c = 'f' ∨ c = 'F' then
        match s.double_peek with
        | some q =>
          if q = '"' ∨ q = singleQuote then
            let s := (s.double_next).2
            let pr := s.create_f_string_start q
            (.ok (some .RawFStringStart), { pr.2 with fstring_stack := pr.1 :: pr.2.fstring_stack })
          else (.ok Option.none, s)
        | Option.none => (.ok Option.none, s)
      else if c = '"' ∨ c = singleQuote then
        let s := (s.next).2
        match skip_to_str_end c s with
        | (.ok _, s') => (.ok (some .StringLiteral), s')
        | (.error e, s') => (.error e, s')
      else (.ok Option.none, s)
    | Option.none => (.ok Option.none, s)
  else if id_start = 'b' ∨ id_start = 'B' then
    match s.peek with
    | some c =>
      if c = 'r' ∨ c = 'R' then
        match s.double_peek with
        | some q =>
          if q = '"' ∨ q = singleQuote then
            let s := (s.double_next).2
            match skip_to_str_end q s with
            | (.ok _, s') => (.ok (some .RawBytes), s')
            | (.error e, s') => (.error e, s')
          else (.ok Option.none, s)
        | Option.none => (.ok Option.none, s)
      else if c = '"' ∨ c = singleQuote then
        let s := (s.next).2
        match skip_to_str_end c s with
        | (.ok _, s') => (.ok (some .Bytes), s')
        | (.error e, s') => (.error e, s')
      else (.ok Option.none, s)
    | Option.none => (.ok Option.none, s)
  else if id_start = 'f' ∨ id_start = 'F' then
    match s.peek with
    | some c =>
      if c = 'r' ∨ c = 'R' then
        match s.double_peek with
        | some q =>
          if q = '"' ∨ q = singleQuote then
            let s := (s.double_next).2
            let pr := s.create_f_string_start q
            (.ok (some .RawFStringStart), { pr.2 with fstring_stack := pr.1 :: pr.2.fstring_stack })
          else (.ok Option.none, s)
        | Option.none => (.ok Option.none, s)
      else if c = '"' ∨ c = singleQuote then
        let s := (s.next).2
        let pr := s.create_f_string_start c
        (.ok (some .FStringStart), { pr.2 with fstring_stack := pr.1 :: pr.2.fstring_stack })
      else (.ok Option.none, s)
    | Option.none => (.ok Option.none, s)
  else if id_start = 'u' ∨ id_start = 'U' then
    match s.peek with
    | some c =>
      if c = '"' ∨ c = singleQuote then
        let s := (s.next).2
        match skip_to_str_end c s with
        | (.ok _, s') => (.ok (some .Unicode), s')
        | (.error e, s') => (.error e, s')
      else (.ok Option.none, s)
    | Option.none => (.ok Option.none, s)
  else (.ok Option.none, s)

/-- `Lexer::match_id_keyword`. -/
def match_id_keyword (id_start : Char) (s : Lexer) : Except LexError Kind × Lexer :=
  match s.match_str id_start with
  | (.error e, s') => (.error e, s')
  | (.ok (some str_kind), s') => (.ok str_kind, s')
  | (.ok Option.none, s') =>
    let pr := s'.extract_id id_start
    (.ok (match_keyword pr.1), pr.2)

/-- The binary-digit loop of `Lexer::match_numeric_literal` (after `0b`). -/
def numBinLoop : Nat → Lexer → Except LexError Kind × Lexer
  | 0, s => (.ok .Binary, s)
  | fuel + 1, s =>
    match s.peek with
    | Option.none => (.ok .Binary, s)
    | some c =>
      if c = '0' ∨ c = '1' then numBinLoop fuel (s.next).2
      else if c = '_' then numBinLoop fuel (s.next).2
      else (.error (.InvalidDigitInBinaryLiteral c), s)

/-- The octal-digit loop of `Lexer::match_numeric_literal` (after `0o`). -/
def numOctLoop : Nat → Lexer → Except LexError Kind × Lexer
  | 0, s => (.ok .Octal, s)
  | fuel + 1, s =>
    match s.peek with
    | Option.none => (.ok .Octal, s)
    | some c =>
      if '0' ≤ c ∧ c ≤ '7' then numOctLoop fuel (s.next).2
      else if c = '_' then numOctLoop fuel (s.next).2
      else (.error (.InvalidDigitInOctalLiteral c), s)

/-- The hexadecimal-digit loop of `Lexer::match_numeric_literal` (after
`0x`). -/
def numHexLoop : Nat → Lexer → Except LexError Kind × Lexer
  | 0, s => (.ok .Hexadecimal, s)
  | fuel + 1, s =>
    match s.peek with
    | Option.none => (.ok .Hexadecimal, s)
    | some c =>
      if ('0' ≤ c ∧ c ≤ '9') ∨ ('a' ≤ c ∧ c ≤ 'f') ∨ ('A' ≤ c ∧ c ≤ 'F') then
        numHexLoop fuel (s.next).2
      else if c = '_' then numHexLoop fuel (s.next).2
      else (.error (.InvalidDigitInHexadecimalLiteral c), s)

/-- The kind produced when the fractional-part loop of
`match_numeric_literal` finishes (`has_exponent` / `is_imaginary` flags). -/
def pointFloatKind (hasExp isImag : Bool) : Kind :=
  if hasExp then (if isImag then .ImaginaryExponentFloat else .ExponentFloat)
  else (if isImag then .ImaginaryPointFloat else .PointFloat)

/-- The fractional-part loop of `Lexer::match_numeric_literal` (the `'.'`
arm's inner `while`). -/
def numAfterDot : Nat → Bool → Bool → Lexer → Except LexError Kind × Lexer
  | 0, hasExp, isImag, s => (.ok (pointFloatKind hasExp isImag), s)
  | fuel + 1, hasExp, isImag, s =>
    match s.peek with
    | Option.none => (.ok (pointFloatKind hasExp isImag), s)
    | some c =>
      if '0' ≤ c ∧ c ≤ '9' then numAfterDot fuel hasExp isImag (s.next).2
      else if c = '_' then numAfterDot fuel hasExp isImag (s.next).2
      else if c = 'e' ∨ c = 'E' then
        let s1 := (s.next).2
        match s1.peek with
        | some d =>
          if d = '+' ∨ d = '-' then numAfterDot fuel true isImag (s1.next).2
          else if '0' ≤ d ∧ d ≤ '9' then numAfterDot fuel true isImag (s1.next).2
          else (.error .InvalidDigitInDecimalLiteral, s1)
        | Option.none => (.error .InvalidDigitInDecimalLiteral, s1)
      else if c = 'j' ∨ c = 'J' then (.ok (pointFloatKind hasExp true), (s.next).2)
      else (.ok (pointFloatKind hasExp isImag), s)

/-- The digit loop after an exponent marker in `match_numeric_literal`'s
`'e'`/`'E'` arm. -/
def numExpDigits : Nat → Lexer → Except LexError Kind × Lexer
  | 0, s => (.ok .ExponentFloat, s)
  | fuel + 1, s =>
    match s.peek with
    | Option.none => (.ok .ExponentFloat, s)
    | some c =>
      if ('0' ≤ c ∧ c ≤ '9') ∨ c = '_' then numExpDigits fuel (s.next).2
      else if c = 'j' ∨ c = 'J' then (.ok .ImaginaryExponentFloat, (s.next).2)
      else (.ok .ExponentFloat, s)

/-- The integer-part loop of `Lexer::match_numeric_literal` (its outer
`while`). -/
def numDecLoop : Nat → Lexer → Except LexError Kind × Lexer
  | 0, s => (.ok .Integer, s)
  | fuel + 1, s =>
    match s.peek with
    | Option.none => (.ok .Integer, s)
    | some c =>
      if c = '.' then numAfterDot fuel false false (s.next).2
      else if c = 'e' ∨ c = 'E' then
        let s1 := (s.next).2
        let s2 := match s1.peek with
          | some d => if d = '+' ∨ d = '-' then (s1.next).2 else s1
          | Option.none => s1
        numExpDigits fuel s2
      else if '0' ≤ c ∧ c ≤ '9' then numDecLoop fuel (s.next).2
      else if c = '_' then numDecLoop fuel (s.next).2
      else if c = 'j' ∨ c = 'J' then (.ok .ImaginaryInteger, (s.next).2)
      else (.ok .Integer, s)

/-- `Lexer::match_numeric_literal` (the first digit is already consumed). -/
def match_numeric_literal (s : Lexer) : Except LexError Kind × Lexer :=
  match s.peek with
  | some c =>
    if c = 'b' ∨ c = 'B' then numBinLoop (s.msr + 1) (s.next).2
    else if c = 'o' ∨ c = 'O' then numOctLoop (s.msr + 1) (s.next).2
    else if c = 'x' ∨ c = 'X' then numHexLoop (s.msr + 1) (s.next).2
    else numDecLoop (s.msr + 1) s
  | Option.none => numDecLoop (s.msr + 1) s

/-- The leading-whitespace counting loop of `Lexer::match_indentation`
(tab counts four columns, space one). -/
def indentSpaces : Nat → Nat → Lexer → Nat × Lexer
  | 0, count, s => (count, s)
  | fuel + 1, count, s =>
    match s.peek with
    | Option.none => (count, s)
    | some c =>
      if c = '\t' then indentSpaces fuel (count + 4) (s.next).2
      else if c = ' ' then indentSpaces fuel (count + 1) (s.next).2
      else (count, s)

/-- `Lexer::match_indentation`: compare the counted indentation with the top
of the indent stack.  Equal widths yield `WhiteSpace`, wider pushes and
yields `Indent`, narrower yields `Dedent` after checking the width matches
some outer level (without popping here), a blank line (a bare line
terminator that is not the last character) yields nothing. -/
def match_indentation (s : Lexer) : Except LexError (Option Kind) × Lexer :=
  let pr := indentSpaces (s.msr + 1) 0 s
  let spaces_count := pr.1
  let s := pr.2
  if spaces_count = 0 ∧ s.peek = some '\n' ∧ (s.double_peek).isSome then
    (.ok Option.none, s)
  else
    match s.indent_stack.head? with
    | some top =>
      if spaces_count < top then
        if s.indent_stack.contains spaces_count then (.ok (some .Dedent), s)
        else (.error .UnindentDoesNotMatchAnyOuterIndentationLevel, s)
      else if spaces_count = top then (.ok (some .WhiteSpace), s)
      else (.ok (some .Indent), { s with indent_stack := spaces_count :: s.indent_stack })
    | Option.none => (.ok Option.none, s)

/-- The column count of a raw token text, from the `Kind::Dedent` arm of
`Lexer::parse_token_value` (stops at the first non-indentation character). -/
def countSpaces : List Char → Nat
  | [] => 0
  | c :: cs =>
    if c = '\t' then 4 + countSpaces cs
    else if c = ' ' then 1 + countSpaces cs
    else 0

/-- The pop loop of the `Kind::Dedent` arm of `Lexer::parse_token_value`:
pop stack levels greater than the new width, counting them; stop at an
equal level.  The Rust code marks a top below the new width
`unreachable!()` (the lexer only creates a dedent when the width is below
the top and present in the stack); the embedding stops the loop there. -/
def dedentPops (spaces : Nat) : List Nat → Nat × List Nat
  | [] => (0, [])
  | top :: rest =>
    if spaces < top then
      let (k, st) := dedentPops spaces rest
      (k + 1, st)
    else (0, top :: rest)

/-- `Lexer::parse_token_value`.  The `u8` dedent count and the `u8` pending
dedent counter are reduced mod 256 where written, matching the release-mode
wrap of the Rust `u8` arithmetic for dedent runs below 256 levels (the only
regime any claim exercises). -/
def parse_token_value (kind : Kind) (kind_value : String) (s : Lexer) : TokenValue × Lexer :=
  match kind with
  | .Integer | .Hexadecimal | .Binary | .PointFloat | .Octal | .ExponentFloat
  | .ImaginaryInteger | .ImaginaryExponentFloat | .ImaginaryPointFloat =>
    (.number kind_value, s)
  | .Identifier => (.str kind_value, s)
  | .StringLiteral | .FStringStart | .FStringMiddle | .FStringEnd | .RawBytes
  | .RawFStringStart | .Bytes | .Unicode | .Comment => (.str kind_value, s)
  | .Dedent =>
    let spaces_count := countSpaces kind_value.data
    let dp := dedentPops spaces_count s.indent_stack
    let de_indents := dp.1
    let s := { s with indent_stack := dp.2 }
    let s :=
      if de_indents ≠ 1 then
        { s with next_token_is_dedent := (s.next_token_is_dedent + (de_indents - 1)) % 256 }
      else s
    (.indent (de_indents % 256), s)
  | .Indent => (.indent 1, s)
  | .Error => (.str kind_value, s)
  | _ => (.none, s)

/-- The literal-text scanning loop of `Lexer::next_fstring_token`
(`consumed` is `consumed_str_in_fstring`). -/
def fstringLoop : Nat → String → Lexer → Option Kind × Lexer
  | 0, _, s => (Option.none, s)
  | fuel + 1, consumed, s =>
  match s.next with
  | (Option.none, s') => (Option.none, s')
  | (some curr, s') =>
    let fd := (s'.fstring_stack.headD "").data
    if curr = '{' then
      if s'.peek = some '{' then
        fstringLoop fuel (consumed ++ "\x7b\x7b") (s'.double_next).2
      else
        (some .LeftBracket, { s' with inside_fstring_bracket := s'.inside_fstring_bracket + 1 })
    else
      if fd.length = 1 ∧ fd.get? 0 = some curr then
        (some .FStringEnd, { s' with fstring_stack := s'.fstring_stack.tail })
      else if fd.length = 3 ∧ fd.get? 0 = some curr ∧ s'.peek = fd.get? 1
          ∧ s'.double_peek = fd.get? 2 then
        (some .FStringEnd,
          { (s'.double_next).2 with fstring_stack := s'.fstring_stack.tail })
      else
        match s'.peek with
        | Option.none => (Option.none, s')
        | some peeked_char =>
          if peeked_char = '{' ∧ s'.double_peek ≠ some '{' then (some .FStringMiddle, s')
          else if consumed.data.getLast? = some '\\' then fstringLoop fuel (consumed.push curr) s'
          else if fd.length = 1 ∧ fd.get? 0 = some peeked_char then (some .FStringMiddle, s')
          else if fd.length = 3 ∧ fd.get? 0 = some peeked_char
              ∧ s'.double_peek = fd.get? 1 ∧ s'.triple_peek = fd.get? 2 then
            (some .FStringMiddle, s')
          else fstringLoop fuel consumed s' 

/-- `Lexer::next_fstring_token`.  Inside an interpolation bracket only an
unescaped `}` is recognised (emitting `RightBracket`); otherwise `none` lets
ordinary tokenization resume.  In text mode, scan literal text until the
terminator (`FStringEnd`, popping the stack) or an unescaped `{`
(`LeftBracket`).  The Rust code reads the terminator with
`last().unwrap()`, guarded non-empty at its only call site; the embedding
defaults to the empty terminator in that unreachable case. -/
def next_fstring_token (s : Lexer) : Option Kind × Lexer :=
  if s.inside_fstring_bracket > 0 then
    if s.peek = some '}' ∧ s.double_peek ≠ some '}' then
      let s := (s.next).2
      (some .RightBracket, { s with inside_fstring_bracket := s.inside_fstring_bracket - 1 })
    else (Option.none, s)
  else fstringLoop (s.msr + 1) "" s

/-- Arms `>` through the whitespace fall-through of the dispatch chain
(see `mainLoopArm`); the final `else` is the loop's self-call. -/
def mainLoopArmE (rec : Lexer → Except LexError Kind × Lexer) (c : Char) (s1 : Lexer) :
    Except LexError Kind × Lexer :=
  if c = '>' then
    if s1.peek = some '>' then
      if s1.double_peek = some '=' then (.ok .ShiftRightAssign, (s1.double_next).2)
      else (.ok .RightShift, (s1.next).2)
    else if s1.peek = some '=' then (.ok .GreaterEq, (s1.next).2)
    else (.ok .Greater, s1)
  else if c = '\n' ∨ c = '\r' then
    let s2 := { s1 with current_line := (s1.current_line + 1) % 65536 }
    if s2.nesting = 0 then (.ok .NewLine, { s2 with start_of_line := true })
    else (.ok .WhiteSpace, s2)
  else if match_whitespace c then (.ok .WhiteSpace, s1)
  else rec s1

/-- Arms `#` through `<` of the dispatch chain (see `mainLoopArm`). -/
def mainLoopArmD2 (rec : Lexer → Except LexError Kind × Lexer) (c : Char) (s1 : Lexer) :
    Except LexError Kind × Lexer :=
  if c = '#' then (.ok .Comment, commentLoop (s1.msr + 1) s1)
  else if c = '\\' then (.ok .BackSlash, s1)
  else if c = '$' then (.ok .Dollar, s1)
  else if c = '?' then (.ok .QuestionMark, s1)
  else if c = backTickChar then (.ok .BackTick, s1)
  else if c = '<' then
    if s1.peek = some '<' then
      if s1.double_peek = some '=' then (.ok .ShiftLeftAssign, (s1.double_next).2)
      else (.ok .LeftShift, (s1.next).2)
    else if s1.peek = some '=' then (.ok .LessEq, (s1.next).2)
    else (.ok .Less, s1)
  else mainLoopArmE rec c s1

/-- Arms `.` through `=` of the dispatch chain (see `mainLoopArm`). -/
def mainLoopArmD (rec : Lexer → Except LexError Kind × Lexer) (c : Char) (s1 : Lexer) :
    Except LexError Kind × Lexer :=
  if c = '.' then
    if s1.peek = some '.' ∧ s1.double_peek = some '.' then (.ok .Ellipsis, (s1.double_next).2)
    else (.ok .Dot, s1)
  else if c = ';' then (.ok .SemiColon, s1)
  else if c = '=' then
    if s1.peek = some '=' then (.ok .Eq, (s1.next).2) else (.ok .Assign, s1)
  else mainLoopArmD2 rec c s1

/-- Arms `!` through `,` of the dispatch chain (see `mainLoopArm`). -/
def mainLoopArmC (rec : Lexer → Except LexError Kind × Lexer) (c : Char) (s1 : Lexer) :
    Except LexError Kind × Lexer :=
  if c = '!' then
    if s1.peek = some '=' then (.ok .NotEq, (s1.next).2)
    else rec s1
  else if c = '(' then (.ok .LeftParen, { s1 with nesting := s1.nesting + 1 })
  else if c = ')' then (.ok .RightParen, { s1 with nesting := s1.nesting - 1 })
  else if c = '[' then (.ok .LeftBrace, { s1 with nesting := s1.nesting + 1 })
  else if c = ']' then (.ok .RightBrace, { s1 with nesting := s1.nesting - 1 })
  else if c = '{' then (.ok .LeftBracket, { s1 with nesting := s1.nesting + 1 })
  else if c = '}' then (.ok .RightBracket, { s1 with nesting := s1.nesting - 1 })
  else if c = ',' then (.ok .Comma, s1)
  else mainLoopArmD rec c s1

/-- Arms `%` through `:` of the dispatch chain (see `mainLoopArm`). -/
def mainLoopArmB (rec : Lexer → Except LexError Kind × Lexer) (c : Char) (s1 : Lexer) :
    Except LexError Kind × Lexer :=
  if c = '%' then
    if s1.peek = some '=' then (.ok .ModAssign, (s1.next).2) else (.ok .Mod, s1)
  else if c = '@' then
    if s1.peek = some '=' then (.ok .MatrixMulAssign, (s1.next).2) else (.ok .MatrixMul, s1)
  else if c = '&' then
    if s1.peek = some '=' then (.ok .BitAndAssign, (s1.next).2) else (.ok .BitAnd, s1)
  else if c = '|' then
    if s1.peek = some '=' then (.ok .BitOrAssign, (s1.next).2) else (.ok .BitOr, s1)
  else if c = '^' then
    if s1.peek = some '=' then (.ok .BitXorAssign, (s1.next).2) else (.ok .BitXor, s1)
  else if c = '~' then (.ok .BitNot, s1)
  else if c = ':' then
    if s1.peek = some '=' then (.ok .Walrus, (s1.next).2) else (.ok .Colon, s1)
  else mainLoopArmC rec c s1

/-- The dispatch arm of the character loop of `Lexer::next_kind`, factored
out of `mainLoopF` with the loop's self-call passed in as `rec` (`s1` is
the state after the character `c` was consumed and the start-of-line flag
cleared).  Every arm mirrors one Rust match arm, in order; the chain is
split into five pieces (`mainLoopArmB` … `mainLoopArmE`) purely for proof
convenience, each piece ending in the next.  Unmatched characters fall
through to the loop's self-call (`rec`). -/
def mainLoopArm (rec : Lexer → Except LexError Kind × Lexer) (c : Char) (s1 : Lexer) :
    Except LexError Kind × Lexer :=
  if '0' ≤ c ∧ c ≤ '9' then s1.match_numeric_literal
  else if ('a' ≤ c ∧ c ≤ 'z') ∨ ('A' ≤ c ∧ c ≤ 'Z') ∨ c = '_' then
    s1.match_id_keyword c
  else if c = '"' ∨ c = singleQuote then
    match skip_to_str_end c s1 with
    | (.ok _, s2) => (.ok .StringLiteral, s2)
    | (.error e, s2) => (.error e, s2)
  else if c = '+' then
    if s1.peek = some '=' then (.ok .AddAssign, (s1.next).2) else (.ok .Plus, s1)
  else if c = '-' then
    if s1.peek = some '>' then (.ok .Arrow, (s1.next).2)
    else if s1.peek = some '=' then (.ok .SubAssign, (s1.next).2)
    else (.ok .Minus, s1)
  else if c = '*' then
    if s1.peek = some '=' then (.ok .MulAssign, (s1.next).2)
    else if s1.peek = some '*' then
      if s1.double_peek = some '=' then (.ok .PowAssign, (s1.double_next).2)
      else (.ok .Pow, (s1.next).2)
    else (.ok .Mul, s1)
  else if c = '/' then
    if s1.peek = some '/' then
      if s1.double_peek = some '=' then (.ok .IntDivAssign, (s1.double_next).2)
      else (.ok .IntDiv, (s1.next).2)
    else if s1.peek = some '=' then (.ok .DivAssign, (s1.next).2)
    else (.ok .Div, s1)
  else mainLoopArmB rec c s1

/-- The character-dispatch loop of `Lexer::next_kind` (its
`while let Some(c) = self.next()`). -/
def mainLoopF : Nat → Lexer → Except LexError Kind × Lexer
  | 0, s => (.ok .Eof, s)
  | fuel + 1, s =>
  match s.next with
  | (Option.none, s') => (.ok .Eof, s')
  | (some c, s0) => mainLoopArm (mainLoopF fuel) c { s0 with start_of_line := false }

/-- The character-dispatch loop entry (fuel per the loop convention). -/
def mainLoop (s : Lexer) : Except LexError Kind × Lexer :=
  mainLoopF (s.msr + 1) s

/-- The part of `Lexer::next_kind` after the start-of-line indentation
check: the f-string sub-lexer first when its stack is non-empty, then the
character-dispatch loop. -/
def next_kind_rest (s : Lexer) : Except LexError Kind × Lexer :=
  if s.fstring_stack.isEmpty then s.mainLoop
  else
    match s.next_fstring_token with
    | (some k, s') => (.ok k, s')
    | (Option.none, s') => s'.mainLoop

/-- `Lexer::next_kind`. -/
def next_kind (s : Lexer) : Except LexError Kind × Lexer :=
  if s.start_of_line then
    match s.match_indentation with
    | (.error e, s') => (.error e, s')
    | (.ok (some indent_kind), s') => (.ok indent_kind, { s' with start_of_line := false })
    | (.ok Option.none, s') => s'.next_kind_rest
  else s.next_kind_rest

/-- The body of `Lexer::next_token`, with fuel for its whitespace-skipping
self-call (`// Ignore whitespace`).  The fuel supplied by `next_token` is
proven sufficient below (`next_tokenF_fuel_irrelevant`); the out-of-fuel
branch returns the whitespace token unskipped. -/
def next_tokenF : Nat → Lexer → Token × Lexer
  | 0, s =>
    ({ kind := .WhiteSpace, value := .none, start := s.current, stop := s.current }, s)
  | fuel + 1, s =>
    if s.next_token_is_dedent > 0 then
      ({ kind := .Dedent, value := .none, start := s.current, stop := s.current },
        { s with next_token_is_dedent := s.next_token_is_dedent - 1 })
    else
      let start := s.current
      let startPos := s.pos
      match s.next_kind with
      | (.error e, s') =>
        ({ kind := .Error, value := .str e.toString, start := start,
           stop := match e with
             | .StringNotTerminated => s'.current - 1
             | _ => s'.current }, s')
      | (.ok kind, s') =>
        if kind = .WhiteSpace then next_tokenF fuel s'
        else
          let raw_value := s'.extract_raw_token_value startPos
          let pv := parse_token_value kind raw_value s'
          ({ kind := kind, value := pv.1, start := start, stop := pv.2.current }, pv.2)

/-- `Lexer::next_token`. -/
def next_token (s : Lexer) : Token × Lexer :=
  next_tokenF (2 * s.msr + 2) s

/-- `Lexer::peek_token`: snapshot of the mutable fields, a `next_token`
call, then restoration.  Exactly the fields the Rust code saves are
restored; in particular `indent_stack` is not among them.  (The Rust
snapshot of the byte offset `current` restores the read position; in the
embedding that one Rust field is the pair `pos`/`current`, restored
together.) -/
def peek_token (s : Lexer) : Token × Lexer :=
  let current := s.current
  let pos := s.pos
  let current_line := s.current_line
  let nesting := s.nesting
  let fstring_stack := s.fstring_stack
  let start_of_line := s.start_of_line
  let inside_fstring_bracket := s.inside_fstring_bracket
  let next_token_is_dedent := s.next_token_is_dedent
  let (token, s') := s.next_token
  (token,
    { s' with
      current := current, pos := pos, current_line := current_line,
      nesting := nesting, fstring_stack := fstring_stack,
      start_of_line := start_of_line,
      inside_fstring_bracket := inside_fstring_bracket,
      next_token_is_dedent := next_token_is_dedent })

/-- Repeated `next_token` calls until (and including) the first `Eof`
token, with fuel; the final lexer state is returned alongside the tokens.
This is the loop the repository's own lexer tests run. -/
def lexAllF : Nat → Lexer → List Token × Lexer
  | 0, s => ([], s)
  | fuel + 1, s =>
    let p := s.next_token
    if p.1.kind = .Eof then ([p.1], p.2)
    else
      let q := lexAllF fuel p.2
      (p.1 :: q.1, q.2)

end Lexer

/-! ## The AST, from `src/parser/src/parser/ast.rs`.

Every Rust payload struct is inlined into its enum variant, fields in
declaration order (`Box` indirections dropped; `Vec`/`Option` become
`List`/`Option`).  The Rust field `end` of `Node` is named `stop`, and the
two fields named `annotation` are named `annot` (a Lean file-hygiene
constraint on the identifier, not a modelling choice). -/

/-- `ast::Node`: a byte-offset span (`start`, `end`). -/
structure Node where
  start : Nat
  stop : Nat
  deriving DecidableEq, Repr

/-- `Node::new`. -/
def Node.new (start stop : Nat) : Node := ⟨start, stop⟩

inductive AugAssignOp where
  | Add | Sub | Mult | MatMult | Div | Mod | Pow | LShift | RShift
  | BitOr | BitXor | BitAnd | FloorDiv
  deriving DecidableEq, Repr

inductive BooleanOperator where
  | And | Or
  deriving DecidableEq, Repr

inductive UnaryOperator where
  | Not | Invert | UAdd | USub
  deriving DecidableEq, Repr

inductive BinaryOperator where
  | Add | Sub | Mult | MatMult | Div | Mod | Pow | LShift | RShift
  | BitOr | BitXor | BitAnd | FloorDiv
  deriving DecidableEq, Repr

inductive ComparisonOperator where
  | Eq | NotEq | Lt | LtE | Gt | GtE | Is | IsNot | In | NotIn
  deriving DecidableEq, Repr

/-- `ast::ConstantValue` (with `ast::Constant` inlined as a node/value pair
in the `tuple` variant). -/
inductive ConstantValue where
  | none
  | ellipsis
  | bool (b : Bool)
  | str (s : String)
  | bytes (b : List Nat)
  | tuple (t : List (Node × ConstantValue))
  | int (s : String)
  | float (s : String)
  | complex (real imaginary : String)
  deriving Repr

mutual

/-- `ast::Expression` with each payload struct inlined. -/
inductive Expression where
  | Constant (node : Node) (value : ConstantValue)
  | List (node : Node) (elements : List Expression)
  | Tuple (node : Node) (elements : List Expression)
  | Dict (node : Node) (keys : List Expression) (values : List Expression)
  | Set (node : Node) (elements : List Expression)
  | Name (node : Node) (id : String)
  | BoolOp (node : Node) (op : BooleanOperator) (values : List Expression)
  | UnaryOp (node : Node) (op : UnaryOperator) (operand : Expression)
  | BinOp (node : Node) (op : BinaryOperator) (left : Expression) (right : Expression)
  | NamedExpr (node : Node) (target : Expression) (value : Expression)
  | Yield (node : Node) (value : Option Expression)
  | YieldFrom (node : Node) (value : Expression)
  | Starred (node : Node) (value : Expression)
  | Generator (node : Node) (element : Expression) (generators : List (Node × Expression × Expression × List Expression × Bool))
  | ListComp (node : Node) (element : Expression) (generators : List (Node × Expression × Expression × List Expression × Bool))
  | SetComp (node : Node) (element : Expression) (generators : List (Node × Expression × Expression × List Expression × Bool))
  | DictComp (node : Node) (key : Expression) (value : Expression) (generators : List (Node × Expression × Expression × List Expression × Bool))
  | Attribute (node : Node) (value : Expression) (attr : String)
  | Subscript (node : Node) (value : Expression) (slice : Expression)
  | Slice (node : Node) (lower upper step : Option Expression)
  | Call (node : Node) (func : Expression) (args : List Expression)
      (keywords : List (Node × Option String × Expression))
      (starargs kwargs : Option Expression)
  | Await (node : Node) (value : Expression)
  | Compare (node : Node) (left : Expression) (ops : List ComparisonOperator)
      (comparators : List Expression)
  | Lambda (node : Node) (args : Arguments) (body : Expression)
  | IfExp (node : Node) (test body orelse : Expression)
  | JoinedStr (node : Node) (values : List Expression)
  | FormattedValue (node : Node) (value : Expression) (conversion : Option Int)
      (format_spec : Option Expression)

/-- `ast::Arguments` (parameter lists); `ast::Arg` is inlined as the triple
`(node, arg, annot)` (the Rust field `annotation`). -/
inductive Arguments where
  | mk (node : Node)
      (posonlyargs : List (Node × String × Option Expression))
      (args : List (Node × String × Option Expression))
      (vararg : Option (Node × String × Option Expression))
      (kwonlyargs : List (Node × String × Option Expression))
      (kw_defaults : List (Option Expression))
      (kwarg : Option (Node × String × Option Expression))
      (defaults : List Expression)

end

/-- `ast::Comprehension` inlined as a tuple: `(node, target, iter, ifs,
is_async)` (see `Expression.Generator` and friends). -/
abbrev Comprehension : Type := Node × Expression × Expression × List Expression × Bool

/-- `ast::Keyword` inlined as a tuple: `(node, arg, value)`. -/
abbrev KeywordArg : Type := Node × Option String × Expression

/-- `ast::TypeParam` with payloads inlined. -/
inductive TypeParam where
  | TypeVar (node : Node) (name : String) (bound : Option Expression)
  | ParamSpec (node : Node) (name : String)
  | TypeVarTuple (node : Node) (name : String)

/-- `ast::MatchPattern` with payloads inlined. -/
inductive MatchPattern where
  | MatchValue (node : Node) (value : Expression)
  | MatchSingleton (value : Expression)
  | MatchSequence (patterns : List MatchPattern)
  | MatchStar (value : Expression)
  | MatchMapping (node : Node) (keys : List Expression) (patterns : List MatchPattern)
      (rest : Option String)
  | MatchAs (node : Node) (name : Option String) (pattern : Option MatchPattern)
  | MatchClass (node : Node) (cls : Expression) (patterns : List MatchPattern)
      (kwd_attrs : List String) (kwd_patterns : List MatchPattern)
  | MatchOr (patterns : List MatchPattern)

/-- `ast::Statement` with payload structs inlined (`ExceptHandler`,
`WithItem`, `Alias` and `MatchCase` become tuples of their fields, in
order). -/
inductive Statement where
  | AssignStatement (node : Node) (targets : List Expression) (value : Expression)
  | AnnAssignStatement (node : Node) (target : Expression) (annot : Expression)
      (value : Option Expression) (simple : Bool)
  | AugAssignStatement (node : Node) (target : Expression) (op : AugAssignOp)
      (value : Expression)
  | ExpressionStatement (e : Expression)
  | Assert (node : Node) (test : Expression) (msg : Option Expression)
  | Pass (node : Node)
  | Delete (node : Node) (targets : List Expression)
  | Return (node : Node) (value : Option Expression)
  | Raise (node : Node) (exc : Option Expression) (cause : Option Expression)
  | Break (node : Node)
  | Continue (node : Node)
  | Import (node : Node) (names : List (Node × String × Option String))
  | ImportFrom (node : Node) (module : String) (names : List (Node × String × Option String))
      (level : Nat)
  | Global (node : Node) (names : List String)
  | Nonlocal (node : Node) (names : List String)
  | IfStatement (node : Node) (test : Expression) (body : List Statement)
      (orelse : List Statement)
  | WhileStatement (node : Node) (test : Expression) (body : List Statement)
      (orelse : List Statement)
  | ForStatement (node : Node) (target : Expression) (iter : Expression)
      (body : List Statement) (orelse : List Statement)
  | AsyncForStatement (node : Node) (target : Expression) (iter : Expression)
      (body : List Statement) (orelse : List Statement)
  | WithStatement (node : Node) (items : List (Node × Expression × Option Expression))
      (body : List Statement)
  | AsyncWithStatement (node : Node) (items : List (Node × Expression × Option Expression))
      (body : List Statement)
  | TryStatement (node : Node) (body : List Statement)
      (handlers : List (Node × Option Expression × Option String × List Statement))
      (orelse : List Statement) (finalbody : List Statement)
  | TryStarStatement (node : Node) (body : List Statement)
      (handlers : List (Node × Option Expression × Option String × List Statement))
      (orelse : List Statement) (finalbody : List Statement)
  | FunctionDef (node : Node) (name : String) (args : Arguments) (body : List Statement)
      (decorator_list : List Expression) (returns : Option Expression)
      (type_comment : Option String) (type_params : List TypeParam)
  | AsyncFunctionDef (node : Node) (name : String) (args : Arguments)
      (body : List Statement) (decorator_list : List Expression)
      (returns : Option Expression) (type_comment : Option String)
      (type_params : List TypeParam)
  | ClassDef (node : Node) (name : String) (bases : List Expression)
      (keywords : List KeywordArg) (body : List Statement)
      (decorator_list : List Expression) (type_params : List TypeParam)
  | Match (node : Node) (subject : Expression)
      (cases : List (Node × MatchPattern × Option Expression × List Statement))
  | TypeAlias (node : Node) (name : String) (type_params : List TypeParam)
      (value : Expression)

/-- `ast::Module`. -/
structure Module where
  node : Node
  body : List Statement

/-- `Expression::get_node` (the `GetNode` impl). -/
def Expression.get_node : Expression → Node
  | .Constant node _ => node
  | .List node _ => node
  | .Tuple node _ => node
  | .Dict node _ _ => node
  | .Set node _ => node
  | .Name node _ => node
  | .BoolOp node _ _ => node
  | .UnaryOp node _ _ => node
  | .BinOp node _ _ _ => node
  | .NamedExpr node _ _ => node
  | .Yield node _ => node
  | .YieldFrom node _ => node
  | .Starred node _ => node
  | .Generator node _ _ => node
  | .ListComp node _ _ => node
  | .SetComp node _ _ => node
  | .DictComp node _ _ _ => node
  | .Attribute node _ _ => node
  | .Subscript node _ _ => node
  | .Slice node _ _ _ => node
  | .Call node _ _ _ _ _ => node
  | .Await node _ => node
  | .Compare node _ _ _ => node
  | .Lambda node _ _ => node
  | .IfExp node _ _ _ => node
  | .JoinedStr node _ => node
  | .FormattedValue node _ _ _ => node

/-- `Statement::get_node` (the `GetNode` impl). -/
def Statement.get_node : Statement → Node
  | .AssignStatement node _ _ => node
  | .AnnAssignStatement node _ _ _ _ => node
  | .AugAssignStatement node _ _ _ => node
  | .ExpressionStatement e => e.get_node
  | .Assert node _ _ => node
  | .Pass node => node
  | .Delete node _ => node
  | .Return node _ => node
  | .Raise node _ _ => node
  | .Break node => node
  | .Continue node => node
  | .Import node _ => node
  | .ImportFrom node _ _ _ => node
  | .Global node _ => node
  | .Nonlocal node _ => node
  | .IfStatement node _ _ _ => node
  | .WhileStatement node _ _ _ => node
  | .ForStatement node _ _ _ _ => node
  | .AsyncForStatement node _ _ _ _ => node
  | .WithStatement node _ _ => node
  | .AsyncWithStatement node _ _ => node
  | .TryStatement node _ _ _ _ => node
  | .TryStarStatement node _ _ _ _ => node
  | .FunctionDef node _ _ _ _ _ _ _ => node
  | .AsyncFunctionDef node _ _ _ _ _ _ _ => node
  | .ClassDef node _ _ _ _ _ _ => node
  | .Match node _ _ => node
  | .TypeAlias node _ _ _ => node

/-! ## The parser, from `src/parser/src/parser/parser.rs`.

A Rust method `&mut self -> Result<T, ParsingError>` becomes a value of
`PM T := Parser → PRes T × Parser`, where `PRes` has a third alternative
`panicked` modelling a Rust `panic!`/`.expect` unwind: `panicked` propagates
through every construct (nothing in the parser catches panics), while
`err` is caught where the Rust code matches on `Result`.

The parser's mutually recursive productions take an explicit fuel argument,
decremented on every nested production call; concrete claims are evaluated
with ample fuel.  Productions that no settled claim can reach are not
translated: they are stubs returning `ParsingError.unmodelled`, and every
theorem below evaluates inputs whose parse never enters a stub. -/

/-- `ParsingError` (`InvalidSyntax { msg, input, advice, span }`).
Modelled from the spec: `error.rs` is not under `src/`; the extra
`unmodelled` variant marks the stubbed productions and fuel exhaustion of
this embedding and is produced by no translated code path. -/
inductive ParsingError where
  | InvalidSyntax (msg : String) (input : String) (advice : String) (span : Nat × Nat)
  | unmodelled (production : String)
  deriving DecidableEq, Repr

/-- The parser state, from `struct Parser` (`parser.rs` lines 22-39). -/
structure Parser where
  source : List Char
  lexer : Lexer
  cur_token : Token
  prev_token_end : Nat
  nested_expression_list : Nat
  errors : List ParsingError
  curr_line_string : String
  curr_line_number : Nat
  curr_line_offset : Nat
  path : String

/-- Outcome of running a parser action: Rust `Ok`, Rust `Err(ParsingError)`,
or a Rust panic unwinding. -/
inductive PRes (α : Type) where
  | ok (a : α)
  | err (e : ParsingError)
  | panicked (msg : String)

/-- Parser actions: explicit state passing over `Parser`. -/
def PM (α : Type) : Type := Parser → PRes α × Parser

instance : Monad PM where
  pure a := fun st => (.ok a, st)
  bind x f := fun st =>
    match x st with
    | (.ok a, st') => f a st'
    | (.err e, st') => (.err e, st')
    | (.panicked m, st') => (.panicked m, st')

namespace Parser

/-- Read the whole state. -/
def getSt : PM Parser := fun st => (.ok st, st)

/-- Replace the whole state. -/
def setSt (st : Parser) : PM Unit := fun _ => (.ok (), st)

/-- Update the state. -/
def modifySt (f : Parser → Parser) : PM Unit := fun st => (.ok (), f st)

/-- Raise a `ParsingError` (Rust `return Err(e)`). -/
def throwP {α : Type} (e : ParsingError) : PM α := fun st => (.err e, st)

/-- Unwind with a panic (Rust `panic!` / `.expect`). -/
def panicP {α : Type} (msg : String) : PM α := fun st => (.panicked msg, st)

/-- The bytes `[a, b)` of the source as a string (a Rust byte-range slice of
the source, always taken at character boundaries). -/
def sliceBytes (src : List Char) (a b : Nat) : String :=
  String.mk (go src 0)
where
  go : List Char → Nat → List Char
    | [], _ => []
    | c :: cs, off =>
      (if a ≤ off ∧ off + utf8Len c ≤ b then [c] else []) ++ go cs (off + utf8Len c)

/-- `Parser::new`. -/
def new (source : String) (path : String) : Parser :=
  let lexer := Lexer.new source
  let (cur_token, lexer) := lexer.next_token
  { source := source.data
    lexer := lexer
    cur_token := cur_token
    prev_token_end := 0
    nested_expression_list := 0
    errors := []
    curr_line_string := ""
    path := path
    curr_line_number := 1
    curr_line_offset := 0 }

/-- `Parser::start_node`. -/
def start_node : PM Node := fun st => (.ok (Node.new st.cur_token.start 0), st)

/-- `Parser::finish_node`. -/
def finish_node (node : Node) : PM Node :=
  fun st => (.ok (Node.new node.start st.prev_token_end), st)

/-- `Parser::cur_token` (a copy of the current token). -/
def curTok : PM Token := fun st => (.ok st.cur_token, st)

/-- `Parser::cur_kind`. -/
def cur_kind : PM Kind := fun st => (.ok st.cur_token.kind, st)

/-- `Parser::at`: whether the current token has the given kind (named
`atKind` here; `at` is reserved in Lean). -/
def atKind (kind : Kind) : PM Bool := fun st => (.ok (st.cur_token.kind = kind), st)

/-- `Parser::get_span_on_line`. -/
def get_span_on_line (start stop : Nat) : Nat × Nat := (start, stop)

/-- `Parser::get_line_number_of_character_position`. -/
def get_line_number_of_character_position (src : List Char) (pos : Nat) : Nat :=
  go src 0 1
where
  go : List Char → Nat → Nat → Nat
    | [], _, line_number => line_number
    | c :: cs, i, line_number =>
      if i = pos then line_number
      else go cs (i + 1) (if c = '\n' then line_number + 1 else line_number)

/-- `Parser::peek_token`: peek through the (state-restoring, see
`Lexer.peek_token`) lexer; an `Error` token becomes a `ParsingError`.  The
message renders the token value (the Rust code formats it with `Debug`). -/
def peek_token : PM Token := fun st =>
  let (token, lexer') := st.lexer.peek_token
  let st := { st with lexer := lexer' }
  if token.kind = .Error then
    let pos := st.cur_token.stop
    (.err (.InvalidSyntax ("Syntax error: " ++ token.value.toString)
        st.curr_line_string "" (get_span_on_line pos pos)), st)
  else (.ok token, st)

/-- `Parser::peek_kind`. -/
def peek_kind : PM Kind := do
  let token ← peek_token
  pure token.kind

/-- The Rust pattern `matches!(self.peek_kind(), Ok(Kind::k))`: a peek whose
error is swallowed by the surrounding `matches!`. -/
def peekKindIs (kind : Kind) : PM Bool := fun st =>
  match peek_token st with
  | (.ok token, st') => (.ok (token.kind = kind), st')
  | (.err _, st') => (.ok false, st')
  | (.panicked m, st') => (.panicked m, st')

/-- `Parser::advance` (fuelled: the trailing comment-skip re-enters it). -/
def advance : Nat → PM Unit
  | 0 => throwP (.unmodelled "fuel")
  | fuel + 1 => fun st =>
    let (token, lexer') := st.lexer.next_token
    let st := { st with lexer := lexer' }
    let st :=
      if st.cur_token.kind = .NewLine then
        { st with curr_line_string := "", curr_line_number := st.curr_line_number + 1 }
      else
        { st with curr_line_string :=
            st.curr_line_string ++ sliceBytes st.source st.prev_token_end st.cur_token.stop }
    let st := { st with curr_line_offset := st.cur_token.stop }
    let st := { st with prev_token_end := st.cur_token.stop, cur_token := token }
    -- `if self.cur_kind() == Kind::Comment { self.bump(Kind::Comment) }`:
    -- the bump's guard is the same test, so it is one conditional advance.
    if token.kind = .Comment then advance fuel st else (.ok (), st)

/-- `Parser::bump`: advance if the current token is of the given kind. -/
def bump (kind : Kind) (fuel : Nat) : PM Unit := do
  let hit ← atKind kind
  if hit then advance fuel else pure ()

/-- `Parser::bump_any`. -/
def bump_any (fuel : Nat) : PM Unit := advance fuel

/-- `Parser::eat`: advance and report whether the kind matched. -/
def eat (kind : Kind) (fuel : Nat) : PM Bool := do
  let hit ← atKind kind
  if hit then do
    advance fuel
    pure true
  else pure false

/-- `Parser::convert_lexer_error_to_parse`. -/
def convert_lexer_error_to_parse : PM ParsingError := fun st =>
  (.ok (.InvalidSyntax st.cur_token.value.toString st.curr_line_string ""
      (get_span_on_line st.cur_token.start st.cur_token.stop)), st)

/-- `Parser::advance_to_next_line_or_semicolon` (fuelled loop). -/
def advance_to_next_line_or_semicolon : Nat → PM Unit
  | 0 => throwP (.unmodelled "fuel")
  | fuel + 1 => do
    let ateNewLine ← eat .NewLine fuel
    if ateNewLine then pure ()
    else do
      let ateSemi ← eat .SemiColon fuel
      if ateSemi then pure ()
      else do
        let atEof ← atKind .Eof
        if atEof then pure ()
        else do
          advance fuel
          advance_to_next_line_or_semicolon fuel

/-- `Parser::expect`: record an `InvalidSyntax` and resynchronize to the
next line or semicolon on mismatch (the message text is modelled; the Rust
code renders the kinds with `Debug`). -/
def expect (kind : Kind) (fuel : Nat) : PM Unit := do
  let st ← getSt
  if st.cur_token.kind = .Error then
    let err ← convert_lexer_error_to_parse
    advance_to_next_line_or_semicolon fuel
    throwP err
  else if st.cur_token.kind ≠ kind then
    let found := st.cur_token.kind
    let node ← start_node
    let range ← finish_node node
    let err := ParsingError.InvalidSyntax
      ("Expected " ++ reprStr kind ++ " but found " ++ reprStr found)
      st.curr_line_string "maybe you forgot to put this character"
      (get_span_on_line range.start range.stop)
    advance_to_next_line_or_semicolon fuel
    throwP err
  else bump_any fuel

/-- `Parser::unepxted_token` (sic): build the "Unexpected token" error,
bumping past the offender (the Rust caller raises the returned error). -/
def unepxted_token (node : Node) (kind : Kind) (fuel : Nat) : PM ParsingError := do
  if kind = .Error then
    let err ← convert_lexer_error_to_parse
    bump_any fuel
    pure err
  else do
    let st ← getSt
    bump_any fuel
    let range ← finish_node node
    pure (.InvalidSyntax ("Unexpected token " ++ reprStr kind)
      st.curr_line_string "" (get_span_on_line range.start range.stop))

/-- `Parser::unexpected_token_new`. -/
def unexpected_token_new (node : Node) (kinds : List Kind) (advice : String)
    (fuel : Nat) : PM ParsingError := do
  let st ← getSt
  if st.cur_token.kind = .Error then
    let err ← convert_lexer_error_to_parse
    advance_to_next_line_or_semicolon fuel
    pure err
  else do
    bump_any fuel
    let range ← finish_node node
    let st' ← getSt
    let expected := String.intercalate ", " (kinds.map reprStr)
    pure (.InvalidSyntax
      ("Expected one of " ++ expected ++ " but found " ++ reprStr st'.cur_token.kind)
      st.curr_line_string advice (get_span_on_line range.start range.stop))

/-- The whitespace/comment-eating loop at the head of
`Parser::err_if_statement_not_ending_in_new_line_or_semicolon`. -/
def eatWhitespaceCommentLoop : Nat → PM Unit
  | 0 => throwP (.unmodelled "fuel")
  | fuel + 1 => do
    let ateWs ← eat .WhiteSpace fuel
    if ateWs then eatWhitespaceCommentLoop fuel
    else do
      let ateComment ← eat .Comment fuel
      if ateComment then eatWhitespaceCommentLoop fuel
      else pure ()

/-- `Parser::err_if_statement_not_ending_in_new_line_or_semicolon`: push a
non-fatal "Statement does not end in new line or semicolon" diagnostic. -/
def err_if_statement_not_ending_in_new_line_or_semicolon (node : Node) (_stmt : Statement)
    (fuel : Nat) : PM Unit := do
  eatWhitespaceCommentLoop fuel
  let st ← getSt
  if st.cur_token.kind = .NewLine ∨ st.cur_token.kind = .SemiColon
      ∨ st.cur_token.kind = .Eof then
    pure ()
  else do
    let node' ← finish_node node
    let err := ParsingError.InvalidSyntax
      "Statement does not end in new line or semicolon"
      st.curr_line_string
      "Split the statements into two seperate lines or add a semicolon"
      (get_span_on_line node'.start node'.stop)
    modifySt fun st' => { st' with errors := st'.errors ++ [err] }

/-- `is_at_compound_statement` (crate module `statement`).  Modelled from
the spec: `statement.rs` is not under `src/`; the token kinds are the
dispatch arms of `Parser::parse_compount_statement` (with the soft keyword
`match`). -/
def is_at_compound_statement (token : Token) : Bool :=
  match token.kind with
  | .If | .While | .For | .Try | .With | .Def | .MatrixMul | .Class | .Async => true
  | .Identifier => token.value.toString = "match"
  | _ => false

/-- `is_atom` (crate module `expression`).  Modelled from the spec:
`expression.rs` is not under `src/`; true exactly for the token kinds
`Parser::parse_atom` handles. -/
def is_atom (kind : Kind) : Bool :=
  match kind with
  | .Identifier | .Integer | .Binary | .Octal | .Hexadecimal | .PointFloat
  | .ExponentFloat | .ImaginaryInteger | .ImaginaryPointFloat
  | .ImaginaryExponentFloat | .StringLiteral | .RawBytes | .Bytes | .Unicode
  | .FStringStart | .RawFStringStart | .False | .True | .None | .Ellipsis
  | .Yield | .LeftParen | .LeftBrace | .LeftBracket => true
  | _ => false

/-- `is_iterable` (crate module `expression`).  Modelled from the spec:
`expression.rs` is not under `src/`.  A false answer only drops a
diagnostic and bumps a token in `parse_starred_item`; no settled claim
reaches that path. -/
def is_iterable : Expression → Bool
  | .Name _ _ | .List _ _ | .Tuple _ _ | .Set _ _ | .Dict _ _ _
  | .Attribute _ _ _ | .Subscript _ _ _ | .Call _ _ _ _ _ _ | .Starred _ _
  | .Generator _ _ _ | .ListComp _ _ _ | .SetComp _ _ _ | .DictComp _ _ _ _ => true
  | _ => false

/-- `is_comparison_operator` (crate module `operator`).  Modelled from the
spec: `operator.rs` is not under `src/`; true exactly for the kinds
`Parser::parse_comp_operator` accepts. -/
def is_comparison_operator (kind : Kind) : Bool :=
  match kind with
  | .Less | .Greater | .LessEq | .GreaterEq | .Eq | .NotEq | .In | .Is | .Not => true
  | _ => false

/-- `is_bin_arithmetic_op` (crate module `operator`).  Modelled from the
spec: `operator.rs` is not under `src/`; the binary arithmetic operators of
the grammar level `parse_binary_arithmetic_operation` handles. -/
def is_bin_arithmetic_op (kind : Kind) : Bool :=
  match kind with
  | .Plus | .Minus | .Mul | .Div | .IntDiv | .Mod | .MatrixMul => true
  | _ => false

/-- `is_unary_op` (crate module `operator`).  Modelled from the spec:
`operator.rs` is not under `src/`; the unary arithmetic/bitwise operators
of the grammar level `parse_unary_arithmetric_operation` handles. -/
def is_unary_op (kind : Kind) : Bool :=
  match kind with
  | .Plus | .Minus | .BitNot => true
  | _ => false

/-- `map_unary_operator` (crate module `operator`).  Modelled from the
spec: `operator.rs` is not under `src/`. -/
def map_unary_operator (kind : Kind) : UnaryOperator :=
  match kind with
  | .Plus => .UAdd
  | .Minus => .USub
  | .BitNot => .Invert
  | _ => .Not

/-- `is_string` (crate module `string`).  Modelled from the spec:
`string.rs` is not under `src/`; the string-ish token kinds merged by
string-literal concatenation. -/
def is_string (kind : Kind) : Bool :=
  match kind with
  | .StringLiteral | .RawBytes | .Bytes | .Unicode | .FStringStart
  | .RawFStringStart => true
  | _ => false

/-- `concat_string_exprs` (crate module `string`).  Stub: not under `src/`
and unreached by every settled claim (no claim input contains two adjacent
string literals). -/
def concat_string_exprs (_lhs _rhs : Expression) : Except ParsingError Expression :=
  .error (.unmodelled "concat_string_exprs")

/-- `map_to_atom` (a `Parser` method).  Stub: unreached by every settled
claim (no claim input contains a literal atom in a parsed position). -/
def map_to_atom (_node : Node) (_kind : Kind) (_value : TokenValue) :
    Except ParsingError Expression :=
  .error (.unmodelled "map_to_atom")

/-- `Parser::parse_aug_assign_op`: map the current token to an augmented
assignment operator, bumping past it on a hit. -/
def parse_aug_assign_op (fuel : Nat) : PM (Option AugAssignOp) := do
  let st ← getSt
  let op : Option AugAssignOp :=
    match st.cur_token.kind with
    | .AddAssign => some .Add
    | .SubAssign => some .Sub
    | .MulAssign => some .Mult
    | .DivAssign => some .Div
    | .IntDivAssign => some .FloorDiv
    | .ModAssign => some .Mod
    | .PowAssign => some .Pow
    | .BitAndAssign => some .BitAnd
    | .BitOrAssign => some .BitOr
    | .BitXorAssign => some .BitXor
    | .ShiftLeftAssign => some .LShift
    | .ShiftRightAssign => some .RShift
    | _ => Option.none
  match op with
  | some o => do
    bump_any fuel
    pure (some o)
  | Option.none => pure Option.none

/-- Run an action and reify its `ParsingError` outcome (a Rust `Result`
value that the caller matches on instead of propagating); panics still
propagate. -/
def runCaught {α : Type} (x : PM α) : PM (α ⊕ ParsingError) := fun st =>
  match x st with
  | (.ok a, st') => (.ok (.inl a), st')
  | (.err e, st') => (.ok (.inr e), st')
  | (.panicked m, st') => (.panicked m, st')

/-- The Rust pattern `match self.peek_kind() { Ok(k) => …, _ => … }`: peek
whose error collapses to `none`. -/
def peekKindOpt : PM (Option Kind) := fun st =>
  match peek_token st with
  | (.ok token, st') => (.ok (some token.kind), st')
  | (.err _, st') => (.ok Option.none, st')
  | (.panicked m, st') => (.panicked m, st')

/-- Stub for `Parser::parse_parameters`: unreached by every settled claim
(no claim input contains `lambda` or `def`). -/
def parse_parameters (_is_lambda : Bool) (_fuel : Nat) : PM Arguments :=
  throwP (.unmodelled "parse_parameters")

/-- Stub for `Parser::parse_slice_list`: unreached by every settled claim
(no claim input contains a subscript). -/
def parse_slice_list (_fuel : Nat) : PM Expression :=
  throwP (.unmodelled "parse_slice_list")

/-- Stub for `Parser::parse_list`: unreached by every settled claim (no
claim input contains `[`). -/
def parse_list (_fuel : Nat) : PM Expression :=
  throwP (.unmodelled "parse_list")

/-- Stub for `Parser::parse_dict_or_set`: unreached by every settled claim
(no claim input contains a brace display). -/
def parse_dict_or_set (_fuel : Nat) : PM Expression :=
  throwP (.unmodelled "parse_dict_or_set")

/-- Stub for the compound-statement parsers (`parse_if_statement`,
`parse_while_statement`, `parse_for_statement`, `parse_try_statement`,
`parse_with_statement`, `parse_function_definition`,
`parse_decorated_function_def_or_class_def`, `parse_class_definition`,
`parse_match_statement`): unreached by every settled claim (no claim input
begins a compound statement). -/
def parse_compound_stub (production : String) (_fuel : Nat) : PM Statement :=
  throwP (.unmodelled production)

/-- Stub for the import/global/nonlocal/type-alias statement parsers:
unreached by every settled claim. -/
def parse_simple_stub (production : String) (_fuel : Nat) : PM Statement :=
  throwP (.unmodelled production)

/-- `Parser::parse_comp_operator`. -/
def parse_comp_operator (fuel : Nat) : PM ComparisonOperator := do
  let node ← start_node
  let st ← getSt
  let opRes : ComparisonOperator ⊕ ParsingError ←
    match st.cur_token.kind with
    | .Less => pure (Sum.inl ComparisonOperator.Lt)
    | .Greater => pure (Sum.inl ComparisonOperator.Gt)
    | .LessEq => pure (Sum.inl ComparisonOperator.LtE)
    | .GreaterEq => pure (Sum.inl ComparisonOperator.GtE)
    | .Eq => pure (Sum.inl ComparisonOperator.Eq)
    | .NotEq => pure (Sum.inl ComparisonOperator.NotEq)
    | .In => pure (Sum.inl ComparisonOperator.In)
    | .Is => do
      let pk ← peekKindOpt
      if pk = some .Not then do
        bump_any fuel
        pure (Sum.inl ComparisonOperator.IsNot)
      else pure (Sum.inl ComparisonOperator.Is)
    | .Not => do
      let pk ← peekKindOpt
      if pk = some .In then do
        bump_any fuel
        pure (Sum.inl ComparisonOperator.NotIn)
      else do
        let e ← unepxted_token node st.cur_token.kind fuel
        pure (Sum.inr e)
    | _ => do
      let e ← unepxted_token node st.cur_token.kind fuel
      pure (Sum.inr e)
  match opRes with
  | .inr e => throwP e
  | .inl op => do
    bump_any fuel
    pure op

/-- `Parser::parse_bin_arithmetic_op` (the trailing `bump_any` runs before
the result, matched or not, is returned). -/
def parse_bin_arithmetic_op (fuel : Nat) : PM BinaryOperator := do
  let st ← getSt
  let opRes : BinaryOperator ⊕ ParsingError ←
    match st.cur_token.kind with
    | .Plus => pure (Sum.inl BinaryOperator.Add)
    | .Minus => pure (Sum.inl BinaryOperator.Sub)
    | .Mul => pure (Sum.inl BinaryOperator.Mult)
    | .Div => pure (Sum.inl BinaryOperator.Div)
    | .IntDiv => pure (Sum.inl BinaryOperator.FloorDiv)
    | .Mod => pure (Sum.inl BinaryOperator.Mod)
    | .Pow => pure (Sum.inl BinaryOperator.Pow)
    | .MatrixMul => pure (Sum.inl BinaryOperator.MatMult)
    | _ => do
      let node ← start_node
      let e ← unepxted_token node st.cur_token.kind fuel
      pure (Sum.inr e)
  bump_any fuel
  match opRes with
  | .inl op => pure op
  | .inr e => throwP e

/-- `Parser::parse_identifier`. -/
def parse_identifier (fuel : Nat) : PM Expression := do
  let node ← start_node
  let st ← getSt
  let value := st.cur_token.value.toString
  expect .Identifier fuel
  let n ← finish_node node
  pure (.Name n value)

/-- `Parser::parse_pass_statement`. -/
def parse_pass_statement (fuel : Nat) : PM Statement := do
  let node ← start_node
  bump .Pass fuel
  let n ← finish_node node
  pure (.Pass n)

/-- `Parser::parse_break_statement`. -/
def parse_break_statement (fuel : Nat) : PM Statement := do
  let node ← start_node
  bump .Break fuel
  let n ← finish_node node
  pure (.Break n)

/-- `Parser::parse_continue_statement`. -/
def parse_continue_statement (fuel : Nat) : PM Statement := do
  let node ← start_node
  bump .Continue fuel
  let n ← finish_node node
  pure (.Continue n)

mutual

/-- `Parser::parse`: the top-level loop.  Statements parsed before any
error are kept, a statement-level error is pushed onto the accumulator and
the loop breaks (`// It's better to exit on the first error`). -/
def parse (fuel : Nat) : PM Module :=
  match fuel with
  | 0 => throwP (.unmodelled "fuel")
  | fuel + 1 => do
    let node ← start_node
    let body ← parseLoop fuel []
    let n ← finish_node node
    pure ⟨n, body⟩

/-- The `while self.cur_kind() != Kind::Eof` loop of `Parser::parse`. -/
def parseLoop (fuel : Nat) (body : List Statement) : PM (List Statement) :=
  match fuel with
  | 0 => throwP (.unmodelled "fuel")
  | fuel + 1 => do
    let st ← getSt
    if st.cur_token.kind = .Eof then pure body
    else do
      let ateComment ← eat .Comment fuel
      if ateComment then parseLoop fuel body
      else do
        let atNewLine ← atKind .NewLine
        if atNewLine then do
          bump_any fuel
          parseLoop fuel body
        else do
          let st2 ← getSt
          let stmtRes ← runCaught
            (if is_at_compound_statement st2.cur_token then parse_compount_statement fuel
             else parse_simple_statement fuel)
          match stmtRes with
          | .inl stmt => parseLoop fuel (body ++ [stmt])
          | .inr err => do
            modifySt fun s => { s with errors := s.errors ++ [err] }
            pure body

/-- `Parser::parse_simple_statement`. -/
def parse_simple_statement (fuel : Nat) : PM Statement :=
  match fuel with
  | 0 => throwP (.unmodelled "fuel")
  | fuel + 1 => do
    let st ← getSt
    let stmt ←
      match st.cur_token.kind with
      | .Assert => parse_assert_statement fuel
      | .Pass => parse_pass_statement fuel
      | .Del => parse_del_statement fuel
      | .Return => parse_return_statement fuel
      | .Yield => do
        let e ← parse_yield_expression fuel
        pure (Statement.ExpressionStatement e)
      | .Raise => parse_raise_statement fuel
      | .Break => parse_break_statement fuel
      | .Continue => parse_continue_statement fuel
      | .Import => parse_simple_stub "parse_import_statement" fuel
      | .From => parse_simple_stub "parse_from_import_statement" fuel
      | .Global => parse_simple_stub "parse_global_statement" fuel
      | .Nonlocal => parse_simple_stub "parse_nonlocal_statement" fuel
      | _ =>
        if st.cur_token.kind = .Identifier ∧ st.cur_token.value.toString = "type" then
          parse_simple_stub "parse_type_alias_statement" fuel
        else if st.cur_token.kind = .Indent then do
          let node ← start_node
          let e ← unexpected_token_new node
            [.Assert, .Pass, .Del, .Return, .Yield, .Raise, .Break, .Continue,
             .Import, .From, .Global, .Nonlocal] "Unexpted indent" fuel
          throwP e
        else parse_assignment_or_expression_statement fuel
    err_if_statement_not_ending_in_new_line_or_semicolon stmt.get_node stmt fuel
    pure stmt

/-- `Parser::parse_compount_statement` (sic). -/
def parse_compount_statement (fuel : Nat) : PM Statement :=
  match fuel with
  | 0 => throwP (.unmodelled "fuel")
  | fuel + 1 => do
    let st ← getSt
    match st.cur_token.kind with
    | .If => parse_compound_stub "parse_if_statement" fuel
    | .While => parse_compound_stub "parse_while_statement" fuel
    | .For => parse_compound_stub "parse_for_statement" fuel
    | .Try => parse_compound_stub "parse_try_statement" fuel
    | .With => parse_compound_stub "parse_with_statement" fuel
    | .Def => parse_compound_stub "parse_function_definition" fuel
    | .MatrixMul => parse_compound_stub "parse_decorated_function_def_or_class_def" fuel
    | .Class => parse_compound_stub "parse_class_definition" fuel
    | .Async => do
      let isDef ← peekKindIs .Def
      if isDef then parse_compound_stub "parse_function_definition" fuel
      else do
        let isFor ← peekKindIs .For
        if isFor then parse_compound_stub "parse_for_statement" fuel
        else do
          let isWith ← peekKindIs .With
          if isWith then parse_compound_stub "parse_with_statement" fuel
          else do
            let node ← start_node
            let kind := st.cur_token.kind
            bump_any fuel
            let e ← unepxted_token node kind fuel
            throwP e
    | .Identifier =>
      if st.cur_token.value.toString = "match" then
        parse_compound_stub "parse_match_statement" fuel
      else compoundFallThrough fuel
    | _ => compoundFallThrough fuel

/-- The `_` arm of `parse_compount_statement`. -/
def compoundFallThrough (fuel : Nat) : PM Statement :=
  match fuel with
  | 0 => throwP (.unmodelled "fuel")
  | _ + 1 => do
    let node ← start_node
    let range ← finish_node node
    let st ← getSt
    throwP (.InvalidSyntax "Expected compound statement" st.curr_line_string
      "maybe you forgot to put this character" (get_span_on_line range.start range.stop))

/-- `Parser::parse_assignment_or_expression_statement`. -/
def parse_assignment_or_expression_statement (fuel : Nat) : PM Statement :=
  match fuel with
  | 0 => throwP (.unmodelled "fuel")
  | fuel + 1 => do
    let node ← start_node
    let lhs ← parse_expression fuel
    let st ← getSt
    if st.cur_token.kind = .Assign then parse_assignment_statement node lhs fuel
    else do
      let op ← parse_aug_assign_op fuel
      match op with
      | some o => parse_aug_assignment_statement node lhs o fuel
      | Option.none => do
        let atColon ← atKind .Colon
        if atColon then parse_ann_assign_statement node lhs fuel
        else pure (.ExpressionStatement lhs)

/-- `Parser::parse_assignment_statement` (chained `a = b = 1` accumulates
targets). -/
def parse_assignment_statement (start : Node) (lhs : Expression) (fuel : Nat) :
    PM Statement :=
  match fuel with
  | 0 => throwP (.unmodelled "fuel")
  | fuel + 1 => do
    bump .Assign fuel
    let (targets, value) ← assignTargetsLoop [lhs] fuel
    let n ← finish_node start
    pure (.AssignStatement n targets value)

/-- The `let value = loop { … }` of `parse_assignment_statement`. -/
def assignTargetsLoop (targets : List Expression) (fuel : Nat) :
    PM (List Expression × Expression) :=
  match fuel with
  | 0 => throwP (.unmodelled "fuel")
  | fuel + 1 => do
    let rhs ← parse_expression fuel
    let ateAssign ← eat .Assign fuel
    if ateAssign then assignTargetsLoop (targets ++ [rhs]) fuel
    else pure (targets, rhs)

/-- `Parser::parse_aug_assignment_statement`. -/
def parse_aug_assignment_statement (start : Node) (lhs : Expression)
    (op : AugAssignOp) (fuel : Nat) : PM Statement :=
  match fuel with
  | 0 => throwP (.unmodelled "fuel")
  | fuel + 1 => do
    let value ← parse_assignment_value fuel
    let n ← finish_node start
    pure (.AugAssignStatement n lhs op value)

/-- `Parser::parse_ann_assign_statement`. -/
def parse_ann_assign_statement (start : Node) (lhs : Expression) (fuel : Nat) :
    PM Statement :=
  match fuel with
  | 0 => throwP (.unmodelled "fuel")
  | fuel + 1 => do
    bump .Colon fuel
    let ann ← parse_expression_2 fuel
    let ateAssign ← eat .Assign fuel
    let value ← if ateAssign then do
        let v ← parse_assignment_value fuel
        pure (some v)
      else pure Option.none
    let n ← finish_node start
    pure (.AnnAssignStatement n lhs ann value true)

/-- `Parser::parse_assignment_value`. -/
def parse_assignment_value (fuel : Nat) : PM Expression :=
  match fuel with
  | 0 => throwP (.unmodelled "fuel")
  | fuel + 1 => do
    let st ← getSt
    if st.cur_token.kind = .Yield then parse_yield_expression fuel
    else parse_expression_list fuel

/-- `Parser::parse_expression_list`. -/
def parse_expression_list (fuel : Nat) : PM Expression :=
  match fuel with
  | 0 => throwP (.unmodelled "fuel")
  | fuel + 1 => do
    let node ← start_node
    let first ← parse_expression_2 fuel
    let expressions ← exprListLoop [first] fuel
    if expressions.length = 1 then pure (expressions.headD first)
    else do
      let n ← finish_node node
      pure (.Tuple n expressions)

/-- The `while self.eat(Comma) && !self.at(Eof)` loop of
`parse_expression_list`. -/
def exprListLoop (acc : List Expression) (fuel : Nat) : PM (List Expression) :=
  match fuel with
  | 0 => throwP (.unmodelled "fuel")
  | fuel + 1 => do
    let ateComma ← eat .Comma fuel
    if ateComma then do
      let atEof ← atKind .Eof
      if atEof then pure acc
      else do
        let e ← parse_expression_2 fuel
        exprListLoop (acc ++ [e]) fuel
    else pure acc

/-- `Parser::parse_yield_expression` (the error of the value's
`parse_expression_list` is swallowed into `None`). -/
def parse_yield_expression (fuel : Nat) : PM Expression :=
  match fuel with
  | 0 => throwP (.unmodelled "fuel")
  | fuel + 1 => do
    let yield_node ← start_node
    expect .Yield fuel
    let ateFrom ← eat .From fuel
    if ateFrom then do
      let value ← parse_expression_2 fuel
      let n ← finish_node yield_node
      pure (.YieldFrom n value)
    else do
      let ateNewLine ← eat .NewLine fuel
      let atEof ← atKind .Eof
      if ateNewLine ∨ atEof then do
        let n ← finish_node yield_node
        pure (.Yield n Option.none)
      else do
        let res ← runCaught (parse_expression_list fuel)
        let value := match res with
          | .inl e => some e
          | .inr _ => Option.none
        let n ← finish_node yield_node
        pure (.Yield n value)

/-- `Parser::parse_expression` (top-of-grammar commas make a tuple). -/
def parse_expression (fuel : Nat) : PM Expression :=
  match fuel with
  | 0 => throwP (.unmodelled "fuel")
  | fuel + 1 => do
    let node ← start_node
    let expr ← parse_expression_2 fuel
    let atComma ← atKind .Comma
    if atComma then do
      let exprs ← parseExpressionCommaLoop [expr] fuel
      let n ← finish_node node
      pure (.Tuple n exprs)
    else pure expr

/-- The comma loop of `parse_expression`. -/
def parseExpressionCommaLoop (acc : List Expression) (fuel : Nat) :
    PM (List Expression) :=
  match fuel with
  | 0 => throwP (.unmodelled "fuel")
  | fuel + 1 => do
    let ateComma ← eat .Comma fuel
    if ateComma then do
      let atEof ← atKind .Eof
      if atEof then pure acc
      else do
        let e ← parse_expression_2 fuel
        parseExpressionCommaLoop (acc ++ [e]) fuel
    else pure acc

/-- `Parser::parse_expression_2`.  A failing parameter list in the lambda
branch is a Rust `.expect("lambda params")`: a panic, not an error. -/
def parse_expression_2 (fuel : Nat) : PM Expression :=
  match fuel with
  | 0 => throwP (.unmodelled "fuel")
  | fuel + 1 => do
    let node ← start_node
    let ateLambda ← eat .Lambda fuel
    if ateLambda then do
      let paramsRes ← runCaught (parse_parameters true fuel)
      match paramsRes with
      | .inr _ => panicP "lambda params"
      | .inl params_list => do
        expect .Colon fuel
        let expr ← parse_expression_2 fuel
        let n ← finish_node node
        pure (.Lambda n params_list expr)
    else parse_conditional_expression fuel

/-- `Parser::parse_conditional_expression` (the or-test's result is held
unexamined until after the `if` branch decides the shape). -/
def parse_conditional_expression (fuel : Nat) : PM Expression :=
  match fuel with
  | 0 => throwP (.unmodelled "fuel")
  | fuel + 1 => do
    let or_test ← runCaught (parse_or_test fuel)
    let ateIf ← eat .If fuel
    if ateIf then do
      let test ← parse_or_test fuel
      expect .Else fuel
      let or_else ← parse_expression_2 fuel
      let node ← start_node
      match or_test with
      | .inl body => pure (.IfExp node test body or_else)
      | .inr e => throwP e
    else
      match or_test with
      | .inl e => pure e
      | .inr e => throwP e

/-- `Parser::parse_named_expression`. -/
def parse_named_expression (fuel : Nat) : PM Expression :=
  match fuel with
  | 0 => throwP (.unmodelled "fuel")
  | fuel + 1 => do
    let node ← start_node
    let st ← getSt
    if st.cur_token.kind = .Identifier then do
      let pk ← peek_kind
      if pk = .Walrus then do
        let identifier := st.cur_token.value.toString
        let identifier_node0 ← start_node
        let identifier_node1 ← finish_node identifier_node0
        expect .Identifier fuel
        let identifier_node ← finish_node identifier_node1
        let ateWalrus ← eat .Walrus fuel
        if ateWalrus then do
          let value ← parse_expression_2 fuel
          let n ← finish_node node
          pure (.NamedExpr n (.Name identifier_node identifier) value)
        else pure (.Name identifier_node identifier)
      else parse_expression_2 fuel
    else parse_expression_2 fuel

/-- `Parser::parse_or_test`. -/
def parse_or_test (fuel : Nat) : PM Expression :=
  match fuel with
  | 0 => throwP (.unmodelled "fuel")
  | fuel + 1 => do
    let node ← start_node
    let lhs ← parse_and_test fuel
    let ateOr ← eat .Or fuel
    if ateOr then do
      let rhs ← parse_or_test fuel
      let n ← finish_node node
      pure (.BoolOp n .Or [lhs, rhs])
    else pure lhs

/-- `Parser::parse_and_test`. -/
def parse_and_test (fuel : Nat) : PM Expression :=
  match fuel with
  | 0 => throwP (.unmodelled "fuel")
  | fuel + 1 => do
    let node ← start_node
    let lhs ← parse_not_test fuel
    let atAnd ← atKind .And
    if atAnd then do
      bump .And fuel
      let rhs ← parse_not_test fuel
      let n ← finish_node node
      pure (.BoolOp n .And [lhs, rhs])
    else pure lhs

/-- `Parser::parse_not_test`. -/
def parse_not_test (fuel : Nat) : PM Expression :=
  match fuel with
  | 0 => throwP (.unmodelled "fuel")
  | fuel + 1 => do
    let node ← start_node
    let atNot ← atKind .Not
    if atNot then do
      bump .Not fuel
      let operand ← parse_not_test fuel
      let n ← finish_node node
      pure (.UnaryOp n .Not operand)
    else parse_comparison fuel

/-- `Parser::parse_comparison`. -/
def parse_comparison (fuel : Nat) : PM Expression :=
  match fuel with
  | 0 => throwP (.unmodelled "fuel")
  | fuel + 1 => do
    let node ← start_node
    let or_expr ← parse_or_expr fuel
    let (ops, comparators) ← comparisonLoop [] [] fuel
    if ops.isEmpty then pure or_expr
    else do
      let n ← finish_node node
      pure (.Compare n or_expr ops comparators)

/-- The operator/comparator loop of `parse_comparison`. -/
def comparisonLoop (ops : List ComparisonOperator) (comparators : List Expression)
    (fuel : Nat) : PM (List ComparisonOperator × List Expression) :=
  match fuel with
  | 0 => throwP (.unmodelled "fuel")
  | fuel + 1 => do
    let st ← getSt
    if is_comparison_operator st.cur_token.kind then do
      let op ← parse_comp_operator fuel
      let c ← parse_or_expr fuel
      comparisonLoop (ops ++ [op]) (comparators ++ [c]) fuel
    else pure (ops, comparators)

/-- `Parser::parse_or_expr`. -/
def parse_or_expr (fuel : Nat) : PM Expression :=
  match fuel with
  | 0 => throwP (.unmodelled "fuel")
  | fuel + 1 => do
    let node ← start_node
    let lhs ← parse_xor_expr fuel
    orExprLoop node lhs fuel

/-- The `while self.eat(BitOr)` loop of `parse_or_expr`. -/
def orExprLoop (node : Node) (lhs : Expression) (fuel : Nat) : PM Expression :=
  match fuel with
  | 0 => throwP (.unmodelled "fuel")
  | fuel + 1 => do
    let ateOr ← eat .BitOr fuel
    if ateOr then do
      let rhs ← parse_xor_expr fuel
      let n ← finish_node node
      orExprLoop node (.BinOp n .BitOr lhs rhs) fuel
    else pure lhs

/-- `Parser::parse_xor_expr`. -/
def parse_xor_expr (fuel : Nat) : PM Expression :=
  match fuel with
  | 0 => throwP (.unmodelled "fuel")
  | fuel + 1 => do
    let node ← start_node
    let and_expr ← parse_and_expr fuel
    let ateXor ← eat .BitXor fuel
    if ateXor then do
      let rhs ← parse_and_expr fuel
      let n ← finish_node node
      pure (.BinOp n .BitXor and_expr rhs)
    else pure and_expr

/-- `Parser::parse_and_expr`. -/
def parse_and_expr (fuel : Nat) : PM Expression :=
  match fuel with
  | 0 => throwP (.unmodelled "fuel")
  | fuel + 1 => do
    let node ← start_node
    let shift_expr ← parse_shift_expr fuel
    andExprLoop node shift_expr fuel

/-- The `while self.eat(BitAnd)` loop of `parse_and_expr`. -/
def andExprLoop (node : Node) (lhs : Expression) (fuel : Nat) : PM Expression :=
  match fuel with
  | 0 => throwP (.unmodelled "fuel")
  | fuel + 1 => do
    let ateAnd ← eat .BitAnd fuel
    if ateAnd then do
      let rhs ← parse_shift_expr fuel
      let n ← finish_node node
      andExprLoop node (.BinOp n .BitAnd lhs rhs) fuel
    else pure lhs

/-- `Parser::parse_shift_expr`. -/
def parse_shift_expr (fuel : Nat) : PM Expression :=
  match fuel with
  | 0 => throwP (.unmodelled "fuel")
  | fuel + 1 => do
    let node ← start_node
    let arith_expr ← parse_binary_arithmetic_operation fuel
    let st ← getSt
    if st.cur_token.kind = .LeftShift ∨ st.cur_token.kind = .RightShift then do
      let ateL ← eat .LeftShift fuel
      let op ← if ateL then pure BinaryOperator.LShift
        else do
          bump .RightShift fuel
          pure BinaryOperator.RShift
      let lhs ← parse_binary_arithmetic_operation fuel
      let n ← finish_node node
      pure (.BinOp n op arith_expr lhs)
    else pure arith_expr

/-- `Parser::parse_binary_arithmetic_operation`. -/
def parse_binary_arithmetic_operation (fuel : Nat) : PM Expression :=
  match fuel with
  | 0 => throwP (.unmodelled "fuel")
  | fuel + 1 => do
    let node ← start_node
    let lhs ← parse_unary_arithmetric_operation fuel
    binArithLoop node lhs fuel

/-- The operator loop of `parse_binary_arithmetic_operation`. -/
def binArithLoop (node : Node) (lhs : Expression) (fuel : Nat) : PM Expression :=
  match fuel with
  | 0 => throwP (.unmodelled "fuel")
  | fuel + 1 => do
    let st ← getSt
    if is_bin_arithmetic_op st.cur_token.kind then do
      let op ← parse_bin_arithmetic_op fuel
      let rhs ← parse_unary_arithmetric_operation fuel
      let n ← finish_node node
      binArithLoop node (.BinOp n op lhs rhs) fuel
    else pure lhs

/-- `Parser::parse_unary_arithmetric_operation` (sic). -/
def parse_unary_arithmetric_operation (fuel : Nat) : PM Expression :=
  match fuel with
  | 0 => throwP (.unmodelled "fuel")
  | fuel + 1 => do
    let node ← start_node
    let st ← getSt
    if is_unary_op st.cur_token.kind then do
      let op := map_unary_operator st.cur_token.kind
      bump_any fuel
      let operand ← parse_unary_arithmetric_operation fuel
      let n ← finish_node node
      pure (.UnaryOp n op operand)
    else parse_power_expression fuel

/-- `Parser::parse_power_expression` (the base's result is held unexamined
until the optional exponent is parsed). -/
def parse_power_expression (fuel : Nat) : PM Expression :=
  match fuel with
  | 0 => throwP (.unmodelled "fuel")
  | fuel + 1 => do
    let node ← start_node
    let st ← getSt
    let base : Expression ⊕ ParsingError ←
      if st.cur_token.kind = .Await then do
        bump .Await fuel
        let value ← parse_primary Option.none fuel
        let n ← finish_node node
        pure (.inl (.Await n value))
      else runCaught (parse_primary Option.none fuel)
    let atePow ← eat .Pow fuel
    if atePow then do
      let exponent ← parse_unary_arithmetric_operation fuel
      let n ← finish_node node
      match base with
      | .inl b => pure (.BinOp n .Pow b exponent)
      | .inr e => throwP e
    else
      match base with
      | .inl b => pure b
      | .inr e => throwP e

/-- `Parser::parse_primary` (primaries chain: attribute refs, subscripts
and calls extend the base). -/
def parse_primary (base : Option Expression) (fuel : Nat) : PM Expression :=
  match fuel with
  | 0 => throwP (.unmodelled "fuel")
  | fuel + 1 => do
    let node ← start_node
    let atom_or_primary ←
      match base with
      | some b => pure b
      | Option.none => do
        let st ← getSt
        if is_atom st.cur_token.kind then parse_atom fuel
        else do
          let e ← unepxted_token node st.cur_token.kind fuel
          throwP e
    let st2 ← getSt
    let primary : Expression ⊕ ParsingError ←
      if st2.cur_token.kind = .Dot then
        runCaught (parse_atribute_ref node atom_or_primary fuel)
      else if st2.cur_token.kind = .LeftBrace then
        runCaught (parse_subscript node atom_or_primary fuel)
      else do
        let ateLP ← eat .LeftParen fuel
        if ateLP then
          runCaught (do
            bump .NewLine fuel
            let (positional_args, keyword_args) ← callArgsLoop [] [] false fuel
            bump .Comma fuel
            expect .RightParen fuel
            let n ← finish_node node
            pure (Expression.Call n atom_or_primary positional_args keyword_args
              Option.none Option.none))
        else pure (.inl atom_or_primary)
    let st3 ← getSt
    if st3.cur_token.kind = .LeftBrace ∨ st3.cur_token.kind = .LeftParen
        ∨ st3.cur_token.kind = .Dot then
      match primary with
      | .inl p => parse_primary (some p) fuel
      | .inr e => throwP e
    else
      match primary with
      | .inl p => pure p
      | .inr e => throwP e

/-- The call-argument loop inside `parse_primary`'s `LeftParen` branch. -/
def callArgsLoop (positional_args : List Expression) (keyword_args : List KeywordArg)
    (seen_keyword : Bool) (fuel : Nat) : PM (List Expression × List KeywordArg) :=
  match fuel with
  | 0 => throwP (.unmodelled "fuel")
  | fuel + 1 => do
    let st ← getSt
    if st.cur_token.kind = .RightParen then pure (positional_args, keyword_args)
    else do
      let isKw ← if st.cur_token.kind = .Identifier then peekKindIs .Assign else pure false
      let (positional_args, keyword_args, seen_keyword) ←
        if isKw then do
          let kw ← parse_keyword_item fuel
          pure (positional_args, keyword_args ++ [kw], true)
        else if st.cur_token.kind = .Mul then do
          let star_arg_node ← start_node
          bump .Mul fuel
          let n ← finish_node star_arg_node
          let v ← parse_expression_2 fuel
          pure (positional_args ++ [Expression.Starred n v], keyword_args, seen_keyword)
        else if st.cur_token.kind = .Pow then do
          let kwarg_node ← start_node
          bump .Pow fuel
          let n ← finish_node kwarg_node
          let v ← parse_expression_2 fuel
          pure (positional_args, keyword_args ++ [(n, Option.none, v)], true)
        else do
          if seen_keyword then do
            let node ← start_node
            let node_end ← finish_node node
            let st' ← getSt
            throwP (.InvalidSyntax "Positional arguments cannot come after keyword arguments."
              st'.curr_line_string "you can only use arguments in form a=b here."
              (get_span_on_line node_end.start node_end.stop))
          else do
            let arg ← parse_named_expression fuel
            pure (positional_args ++ [arg], keyword_args, seen_keyword)
      let ateComma ← eat .Comma fuel
      if ateComma then callArgsLoop positional_args keyword_args seen_keyword fuel
      else pure (positional_args, keyword_args)

/-- `Parser::parse_keyword_item` (both `expect`s discard their results). -/
def parse_keyword_item (fuel : Nat) : PM KeywordArg :=
  match fuel with
  | 0 => throwP (.unmodelled "fuel")
  | fuel + 1 => do
    let node ← start_node
    let st ← getSt
    let arg := st.cur_token.value.toString
    let _ ← runCaught (expect .Identifier fuel)
    let _ ← runCaught (expect .Assign fuel)
    let value ← parse_expression_2 fuel
    let n ← finish_node node
    pure (n, some arg, value)

/-- `Parser::parse_atom`. -/
def parse_atom (fuel : Nat) : PM Expression :=
  match fuel with
  | 0 => throwP (.unmodelled "fuel")
  | fuel + 1 => do
    let node ← start_node
    let st ← getSt
    if st.cur_token.kind = .Yield then parse_yield_expression fuel
    else if st.cur_token.kind = .LeftBrace then do
      modifySt fun s => { s with nested_expression_list := s.nested_expression_list + 1 }
      let res ← runCaught (parse_list fuel)
      modifySt fun s => { s with nested_expression_list := s.nested_expression_list - 1 }
      match res with
      | .inl e => pure e
      | .inr e => throwP e
    else if st.cur_token.kind = .LeftBracket then do
      modifySt fun s => { s with nested_expression_list := s.nested_expression_list + 1 }
      let res ← runCaught (parse_dict_or_set fuel)
      modifySt fun s => { s with nested_expression_list := s.nested_expression_list - 1 }
      match res with
      | .inl e => pure e
      | .inr e => throwP e
    else if st.cur_token.kind = .LeftParen then do
      modifySt fun s => { s with nested_expression_list := s.nested_expression_list + 1 }
      let res ← runCaught (parse_paren_form_or_generator fuel)
      modifySt fun s => { s with nested_expression_list := s.nested_expression_list - 1 }
      match res with
      | .inl e => pure e
      | .inr e => throwP e
    else if st.cur_token.kind = .Identifier then parse_identifier fuel
    else if is_atom st.cur_token.kind then do
      let token_value := st.cur_token.value
      let token_kind := st.cur_token.kind
      bump_any fuel
      match map_to_atom node token_kind token_value with
      | .error e => throwP e
      | .ok expr =>
        if is_string token_kind then stringConcatLoop node expr fuel
        else pure expr
    else do
      let e ← unepxted_token node st.cur_token.kind fuel
      throwP e

/-- The string-literal concatenation loop of `parse_atom`. -/
def stringConcatLoop (node : Node) (expr : Expression) (fuel : Nat) : PM Expression :=
  match fuel with
  | 0 => throwP (.unmodelled "fuel")
  | fuel + 1 => do
    let st ← getSt
    if is_string st.cur_token.kind then do
      let token_value := st.cur_token.value
      let token_kind := st.cur_token.kind
      bump_any fuel
      match map_to_atom node token_kind token_value with
      | .error e => throwP e
      | .ok next_str =>
        match concat_string_exprs expr next_str with
        | .error e => throwP e
        | .ok expr' => stringConcatLoop node expr' fuel
    else do
      let ateWs ← eat .WhiteSpace fuel
      if ateWs then stringConcatLoop node expr fuel
      else if st.cur_token.kind = .Indent ∨ st.cur_token.kind = .NewLine
          ∨ st.cur_token.kind = .Dedent then do
        let st' ← getSt
        if st'.nested_expression_list > 0 then do
          bump_any fuel
          stringConcatLoop node expr fuel
        else pure expr
      else pure expr

/-- `Parser::parse_paren_form_or_generator`.  On `(`: an empty pair is the
empty tuple; a walrus peek selects a named expression, a `*` a starred
item; a following `for` makes a generator; otherwise
`parse_starred_expression` decides bare-expression vs tuple. -/
def parse_paren_form_or_generator (fuel : Nat) : PM Expression :=
  match fuel with
  | 0 => throwP (.unmodelled "fuel")
  | fuel + 1 => do
    let node ← start_node
    expect .LeftParen fuel
    let st ← getSt
    if st.cur_token.kind = .RightParen then do
      let n ← finish_node node
      pure (.Tuple n [])
    else do
      let isWalrus ← if st.cur_token.kind = .Identifier then peekKindIs .Walrus
        else pure false
      let first_expr ←
        if isWalrus then parse_named_expression fuel
        else do
          let ateMul ← eat .Mul fuel
          if ateMul then do
            let expr ← parse_or_expr fuel
            let n ← finish_node node
            pure (Expression.Starred n expr)
          else parse_expression_2 fuel
      let st2 ← getSt
      let isGen ← if st2.cur_token.kind = .For then pure true else peekKindIs .For
      if isGen then do
        let generators ← parse_comp_for fuel
        expect .RightParen fuel
        let n ← finish_node node
        pure (.Generator n first_expr generators)
      else do
        let expr ← parse_starred_expression node first_expr fuel
        expect .RightParen fuel
        pure expr

/-- `Parser::parse_comp_for`. -/
def parse_comp_for (fuel : Nat) : PM (List Comprehension) :=
  match fuel with
  | 0 => throwP (.unmodelled "fuel")
  | fuel + 1 => do
    let is_async ← eat .Async fuel
    compForLoop [] is_async fuel

/-- The comprehension loop of `parse_comp_for`. -/
def compForLoop (generators : List Comprehension) (is_async : Bool) (fuel : Nat) :
    PM (List Comprehension) :=
  match fuel with
  | 0 => throwP (.unmodelled "fuel")
  | fuel + 1 => do
    let node ← start_node
    expect .For fuel
    let target ← parse_target_list fuel
    expect .In fuel
    let iter ← parse_or_test fuel
    let ateIf ← eat .If fuel
    let ifs ← if ateIf then compIfsLoop [] fuel else pure []
    let n ← finish_node node
    let generators := generators ++ [(n, target, iter, ifs, is_async)]
    let st ← getSt
    if st.cur_token.kind = .For then compForLoop generators is_async fuel
    else pure generators

/-- The `if`-clause loop inside `parse_comp_for`. -/
def compIfsLoop (ifs : List Expression) (fuel : Nat) : PM (List Expression) :=
  match fuel with
  | 0 => throwP (.unmodelled "fuel")
  | fuel + 1 => do
    let e ← parse_or_test fuel
    let ateIf ← eat .If fuel
    if ateIf then compIfsLoop (ifs ++ [e]) fuel
    else pure (ifs ++ [e])

/-- `Parser::parse_target_list`. -/
def parse_target_list (fuel : Nat) : PM Expression :=
  match fuel with
  | 0 => throwP (.unmodelled "fuel")
  | fuel + 1 => do
    let node ← start_node
    let targets ← targetListLoop [] fuel
    match targets with
    | [t] => pure t
    | _ => do
      let n ← finish_node node
      pure (.Tuple n targets)

/-- The target loop of `parse_target_list`. -/
def targetListLoop (targets : List Expression) (fuel : Nat) : PM (List Expression) :=
  match fuel with
  | 0 => throwP (.unmodelled "fuel")
  | fuel + 1 => do
    let t ← parse_target fuel
    let targets := targets ++ [t]
    let ateComma ← eat .Comma fuel
    if ateComma then do
      let st ← getSt
      if st.cur_token.kind = .NewLine ∨ st.cur_token.kind = .Eof then pure targets
      else targetListLoop targets fuel
    else pure targets

/-- `Parser::parse_target`.  A token that cannot start a target hits the
Rust `panic!("invalid target")`. -/
def parse_target (fuel : Nat) : PM Expression :=
  match fuel with
  | 0 => throwP (.unmodelled "fuel")
  | fuel + 1 => do
    let node ← start_node
    let st ← getSt
    match st.cur_token.kind with
    | .Identifier => do
      let pk ← peekKindOpt
      match pk with
      | some .LeftBrace => do
        let atom ← parse_atom fuel
        let t ← parse_subscript node atom fuel
        targetTrailer node t fuel
      | some .Dot => do
        let atom ← parse_atom fuel
        let t ← parse_atribute_ref node atom fuel
        targetTrailer node t fuel
      | _ => do
        let identifier := st.cur_token.value.toString
        let identifier_node0 ← start_node
        let identifier_node1 ← finish_node identifier_node0
        expect .Identifier fuel
        let identifier_node ← finish_node identifier_node1
        pure (.Name identifier_node identifier)
    | .LeftBrace => do
      bump .LeftBrace fuel
      let elements ← targetSeqLoop [] fuel
      expect .RightBrace fuel
      let n ← finish_node node
      targetTrailer node (.List n elements) fuel
    | .LeftParen => do
      bump .LeftParen fuel
      let targets ← targetSeqLoop [] fuel
      expect .RightParen fuel
      let t ←
        match targets with
        | [t] => pure t
        | _ => do
          let n ← finish_node node
          pure (Expression.Tuple n targets)
      targetTrailer node t fuel
    | .Mul => do
      let n ← finish_node node
      let v ← parse_target fuel
      targetTrailer node (.Starred n v) fuel
    | _ => panicP "invalid target"

/-- The trailing comma loop of `parse_target` (further targets form a
tuple). -/
def targetTrailer (node : Node) (first : Expression) (fuel : Nat) : PM Expression :=
  match fuel with
  | 0 => throwP (.unmodelled "fuel")
  | fuel + 1 => do
    let targets ← targetTrailerLoop [first] fuel
    match targets with
    | [t] => pure t
    | _ => do
      let n ← finish_node node
      pure (.Tuple n targets)

/-- The `while self.eat(Comma)` loop of `parse_target`. -/
def targetTrailerLoop (targets : List Expression) (fuel : Nat) : PM (List Expression) :=
  match fuel with
  | 0 => throwP (.unmodelled "fuel")
  | fuel + 1 => do
    let ateComma ← eat .Comma fuel
    if ateComma then do
      let st ← getSt
      if st.cur_token.kind = .Identifier ∨ st.cur_token.kind = .LeftBrace
          ∨ st.cur_token.kind = .LeftParen ∨ st.cur_token.kind = .Mul then do
        let t ← parse_target fuel
        targetTrailerLoop (targets ++ [t]) fuel
      else pure targets
    else pure targets

/-- The element loop of `parse_target`'s bracketed/parenthesized branches
(`loop { push parse_target; if !eat(Comma) break }`). -/
def targetSeqLoop (targets : List Expression) (fuel : Nat) : PM (List Expression) :=
  match fuel with
  | 0 => throwP (.unmodelled "fuel")
  | fuel + 1 => do
    let t ← parse_target fuel
    let targets := targets ++ [t]
    let ateComma ← eat .Comma fuel
    if ateComma then targetSeqLoop targets fuel
    else pure targets

/-- `Parser::parse_atribute_ref` (sic). -/
def parse_atribute_ref (node : Node) (value : Expression) (fuel : Nat) : PM Expression :=
  match fuel with
  | 0 => throwP (.unmodelled "fuel")
  | fuel + 1 => do
    let ateDot ← eat .Dot fuel
    if ateDot then do
      let st ← getSt
      let attr_val := st.cur_token.value.toString
      expect .Identifier fuel
      let n ← finish_node node
      parse_atribute_ref node (.Attribute n value attr_val) fuel
    else pure value

/-- `Parser::parse_subscript`. -/
def parse_subscript (node : Node) (value : Expression) (fuel : Nat) : PM Expression :=
  match fuel with
  | 0 => throwP (.unmodelled "fuel")
  | fuel + 1 => do
    let ateLB ← eat .LeftBrace fuel
    if ateLB then do
      let slice ← parse_slice_list fuel
      let n ← finish_node node
      parse_subscript node (.Subscript n value slice) fuel
    else pure value

/-- `Parser::parse_starred_expression`: gather comma-separated items after
the first; a single item without a further item parsed is returned bare,
otherwise a tuple is built.  (The `seen_comma` flag is set only after
another item is parsed, so a lone trailing comma still yields the bare
expression; the Rust comment above the loop states the one-element-tuple
intent.) -/
def parse_starred_expression (node : Node) (first_elm : Expression) (fuel : Nat) :
    PM Expression :=
  match fuel with
  | 0 => throwP (.unmodelled "fuel")
  | fuel + 1 => do
    let (elements, seen_comma) ← starredExprLoop [first_elm] false fuel
    if elements.length = 1 ∧ ¬seen_comma then pure (elements.headD first_elm)
    else do
      let n ← finish_node node
      pure (.Tuple n elements)

/-- The item loop of `parse_starred_expression`. -/
def starredExprLoop (elements : List Expression) (seen_comma : Bool) (fuel : Nat) :
    PM (List Expression × Bool) :=
  match fuel with
  | 0 => throwP (.unmodelled "fuel")
  | fuel + 1 => do
    let st ← getSt
    if st.cur_token.kind = .Eof ∨ st.cur_token.kind = .RightParen then
      pure (elements, seen_comma)
    else do
      expect .Comma fuel
      let st2 ← getSt
      if st2.cur_token.kind = .RightParen then pure (elements, seen_comma)
      else do
        let expr ← parse_starred_item fuel
        starredExprLoop (elements ++ [expr]) true fuel

/-- `Parser::parse_starred_item` (a non-iterable starred value builds the
"unexpected token" diagnostic for its side effects and drops it). -/
def parse_starred_item (fuel : Nat) : PM Expression :=
  match fuel with
  | 0 => throwP (.unmodelled "fuel")
  | fuel + 1 => do
    let node ← start_node
    let ateMul ← eat .Mul fuel
    if ateMul then do
      let st ← getSt
      let starred_value_kind := st.cur_token.kind
      let expr ← parse_or_expr fuel
      let node' ← finish_node node
      if ¬ is_iterable expr then do
        let _ ← unepxted_token node' starred_value_kind fuel
        let n ← finish_node node'
        pure (.Starred n expr)
      else do
        let n ← finish_node node'
        pure (.Starred n expr)
    else parse_named_expression fuel

/-- `Parser::parse_del_statement`. -/
def parse_del_statement (fuel : Nat) : PM Statement :=
  match fuel with
  | 0 => throwP (.unmodelled "fuel")
  | fuel + 1 => do
    let node ← start_node
    bump .Del fuel
    let expr ← parse_target_list fuel
    let targets :=
      match expr with
      | .Tuple _ elements => elements
      | e => [e]
    let n ← finish_node node
    pure (.Delete n targets)

/-- `Parser::parse_assert_statement`. -/
def parse_assert_statement (fuel : Nat) : PM Statement :=
  match fuel with
  | 0 => throwP (.unmodelled "fuel")
  | fuel + 1 => do
    let node ← start_node
    bump .Assert fuel
    let test ← parse_expression_2 fuel
    let ateComma ← eat .Comma fuel
    let msg ← if ateComma then do
        let m ← parse_expression_2 fuel
        pure (some m)
      else pure Option.none
    let n ← finish_node node
    pure (.Assert n test msg)

/-- `Parser::parse_return_statement`. -/
def parse_return_statement (fuel : Nat) : PM Statement :=
  match fuel with
  | 0 => throwP (.unmodelled "fuel")
  | fuel + 1 => do
    let node ← start_node
    bump .Return fuel
    let atNewLine ← atKind .NewLine
    let value ← if atNewLine then pure Option.none
      else do
        let v ← parse_expression_list fuel
        pure (some v)
    let n ← finish_node node
    pure (.Return n value)

/-- `Parser::parse_raise_statement`. -/
def parse_raise_statement (fuel : Nat) : PM Statement :=
  match fuel with
  | 0 => throwP (.unmodelled "fuel")
  | fuel + 1 => do
    let node ← start_node
    bump .Raise fuel
    let st ← getSt
    let exc ← if st.cur_token.kind = .NewLine ∨ st.cur_token.kind = .Eof then
        pure Option.none
      else do
        let e ← parse_expression_2 fuel
        pure (some e)
    let ateFrom ← eat .From fuel
    let cause ← if ateFrom then do
        let c ← parse_expression_2 fuel
        pure (some c)
      else pure Option.none
    let n ← finish_node node
    pure (.Raise n exc cause)

end

/-- Parse a source string from a fresh parser (the repository's tests call
`Parser::new(source, path).parse()`). -/
def parseModule (fuel : Nat) (source : String) : PRes Module × Parser :=
  parse fuel (Parser.new source "")

end Parser

/-! ## The symbol table, from `src/typechecker/src/symbol_table.rs`.

Modelling conventions for this part:

* The `HashMap<String, SymbolTableNode>` of a scope is an association list
  with `HashMap` semantics: `get` finds the entry of a key, `insert`
  replaces it (or appends a new entry).  No embedded function depends on
  iteration order of the map.
* `Declaration` keeps its seven variants but carries only the
  `DeclarationPath` payload field: every `symbol_table.rs` function settled
  here (`add_symbol`, `add_declaration`, `lookup_in_scope`,
  `innermost_scope`) reads no other payload field.  The `_locals` field of
  `SymbolTable` (never touched by these functions) is omitted.
* `get_id()` reads a process-global atomic counter; the embedding passes
  the counter explicitly and returns its new value.
* `Vec` semantics for `scopes`/`all_scopes` are kept verbatim: element 0
  first, push/pop at the end (`List.getLast?`/`List.dropLast`).
* The Rust code `unwrap`s/`panic`s on states with no current, global or
  builtin scope; such states are not built by the embedded API starting
  from `SymbolTable::global`, and the embedding returns the no-result value
  there. -/

/-- `DeclarationPath { module_name, node }`. -/
structure DeclarationPath where
  module_name : String
  node : Node
  deriving DecidableEq, Repr

/-- `Declaration`: the seven binding variants, carrying their provenance
path (see the modelling note above). -/
inductive Declaration where
  | Variable (declaration_path : DeclarationPath)
  | Function (declaration_path : DeclarationPath)
  | Class (declaration_path : DeclarationPath)
  | Alias (declaration_path : DeclarationPath)
  | Parameter (declaration_path : DeclarationPath)
  | TypeParameter (declaration_path : DeclarationPath)
  | TypeAlias (declaration_path : DeclarationPath)
  deriving DecidableEq, Repr

/-- `Declaration::declaration_path`. -/
def Declaration.declaration_path : Declaration → DeclarationPath
  | .Variable p | .Function p | .Class p | .Alias p | .Parameter p
  | .TypeParameter p | .TypeAlias p => p

/-- `SymbolTableNode { name, declarations }`. -/
structure SymbolTableNode where
  name : String
  declarations : List Declaration
  deriving DecidableEq, Repr

/-- `SymbolTableNode::add_declaration`. -/
def SymbolTableNode.add_declaration (n : SymbolTableNode) (decl : Declaration) :
    SymbolTableNode :=
  { n with declarations := n.declarations ++ [decl] }

/-- `SymbolTableNode::last_declaration`. -/
def SymbolTableNode.last_declaration (n : SymbolTableNode) : Option Declaration :=
  n.declarations.getLast?

/-- `SymbolTableType`. -/
inductive SymbolTableType where
  | BUILTIN
  | Module
  | Class
  | Function
  deriving DecidableEq, Repr

/-- The symbol map of a scope: an association list with `HashMap::get` /
`HashMap::insert` semantics. -/
abbrev SymbolMap := List (String × SymbolTableNode)

/-- `HashMap::get`. -/
def symbolsGet (m : SymbolMap) (key : String) : Option SymbolTableNode :=
  (m.find? fun p => p.1 = key).map (·.2)

/-- `HashMap::insert` (replace the existing entry or add one). -/
def symbolsInsert (m : SymbolMap) (key : String) (v : SymbolTableNode) : SymbolMap :=
  if (m.find? fun p => p.1 = key).isSome then
    m.map fun p => if p.1 = key then (key, v) else p
  else m ++ [(key, v)]

/-- `SymbolTableScope`. -/
structure SymbolTableScope where
  id : Nat
  start_pos : Nat
  symbol_table_type : SymbolTableType
  name : String
  symbols : SymbolMap
  parent : Option Nat
  deriving DecidableEq, Repr

/-- `SymbolTableScope::new` (the id comes from the explicit counter). -/
def SymbolTableScope.new (symbol_table_type : SymbolTableType) (name : String)
    (start_line_number : Nat) (counter : Nat) : SymbolTableScope × Nat :=
  ({ id := counter
     symbol_table_type := symbol_table_type
     name := name
     symbols := []
     parent := Option.none
     start_pos := start_line_number }, counter + 1)

/-- `SymbolTable { scopes, all_scopes }` (the unused `_locals` is
omitted). -/
structure SymbolTable where
  scopes : List SymbolTableScope
  all_scopes : List SymbolTableScope
  deriving DecidableEq, Repr

namespace SymbolTable

/-- One bootstrap class entry of `SymbolTable::global` (a `Class`
declaration rooted at the zero node of module `builtins`). -/
def builtinClassNode (name : String) : SymbolTableNode :=
  { name := name
    declarations := [.Class { module_name := "builtins", node := { start := 0, stop := 0 } }] }

/-- `SymbolTable::global`: a builtin scope holding the `list`, `tuple`,
`set` and `dict` bootstrap classes, and a module scope (named `global`)
whose parent is the builtin scope.  The class names come from
`type_check::builtins` (modelled from the spec: `builtins.rs` is not under
`src/`; the spec lists list/tuple/set/dict as the bootstrap entries). -/
def global (counter : Nat) : SymbolTable × Nat :=
  let builtin_id := counter
  let builtin_scope : SymbolTableScope :=
    { id := builtin_id
      symbol_table_type := .BUILTIN
      symbols :=
        symbolsInsert
          (symbolsInsert
            (symbolsInsert
              (symbolsInsert ([] : SymbolMap) "list" (builtinClassNode "list"))
              "tuple" (builtinClassNode "tuple"))
            "set" (builtinClassNode "set"))
          "dict" (builtinClassNode "dict")
      name := "builtins"
      parent := Option.none
      start_pos := 0 }
  let global_scope : SymbolTableScope :=
    { id := counter + 1
      symbol_table_type := .Module
      symbols := []
      name := "global"
      parent := some builtin_id
      start_pos := 0 }
  ({ scopes := [builtin_scope, global_scope], all_scopes := [] }, counter + 2)

/-- `SymbolTable::current_scope` (the Rust method panics on an empty scope
stack; `none` marks that unreachable state here). -/
def current_scope? (t : SymbolTable) : Option SymbolTableScope :=
  t.scopes.getLast?

/-- `SymbolTable::global_scope` (`unwrap` modelled as `Option`). -/
def global_scope? (t : SymbolTable) : Option SymbolTableScope :=
  (t.scopes.filter fun scope => scope.symbol_table_type = .Module).getLast?

/-- `SymbolTable::get_builtin_scope` (`unwrap` modelled as `Option`). -/
def get_builtin_scope? (t : SymbolTable) : Option SymbolTableScope :=
  (t.scopes.filter fun scope => scope.symbol_table_type = .BUILTIN).getLast?

/-- `SymbolTable::innermost_scope`: the last archived scope whose
`start_pos` precedes the position (`iter().filter(…).last()`). -/
def innermost_scope (t : SymbolTable) (pos : Nat) : Option SymbolTableScope :=
  (t.all_scopes.filter fun scope => scope.start_pos < pos).getLast?

/-- The `while let Some(scope)` walk of `SymbolTable::lookup_in_scope`:
return the first symbol found, break at a parent-less scope, resolve a
parent id against the archive (`all_scopes`).  The fuel bounds the walk;
`lookup_in_scope` supplies one step per archived scope plus one, enough for
every parent chain the archive can hold without revisiting a scope. -/
def lookupLoop (t : SymbolTable) (name : String) :
    Nat → Option SymbolTableScope → Option SymbolTableNode
  | 0, _ => Option.none
  | _, Option.none => Option.none
  | fuel + 1, some scope =>
    match symbolsGet scope.symbols name with
    | some symbol => some symbol
    | Option.none =>
      if scope.parent = Option.none then Option.none
      else
        let next :=
          match scope.parent with
          | some parent_id =>
            (t.all_scopes.filter fun sc => sc.id = parent_id).getLast?
          | Option.none => t.global_scope?
        lookupLoop t name fuel next

/-- `LookupSymbolRequest { name, position }`. -/
structure LookupSymbolRequest where
  name : String
  position : Option Nat

/-- `SymbolTable::lookup_in_scope`.  With a position: walk the archived
chain from `innermost_scope`; a found symbol returns immediately, and when
the walk ends empty-handed control falls through to the current-scope
check at the function's end.  Without a position: check the current scope
(the fall-through then repeats the same check). -/
def lookup_in_scope (t : SymbolTable) (req : LookupSymbolRequest) :
    Option SymbolTableNode :=
  let fromPosition : Option SymbolTableNode :=
    match req.position with
    | some pos => lookupLoop t req.name (t.all_scopes.length + 1) (t.innermost_scope pos)
    | Option.none => t.current_scope?.bind fun scope => symbolsGet scope.symbols req.name
  match fromPosition with
  | some symbol => some symbol
  | Option.none => t.current_scope?.bind fun scope => symbolsGet scope.symbols req.name

/-- `SymbolTable::lookup_in_builtin_scope`. -/
def lookup_in_builtin_scope (t : SymbolTable) (name : String) :
    Option SymbolTableNode :=
  t.get_builtin_scope?.bind fun scope => symbolsGet scope.symbols name

/-- `SymbolTable::enter_scope`. -/
def enter_scope (t : SymbolTable) (new_scope : SymbolTableScope) : SymbolTable :=
  { t with scopes := t.scopes ++ [new_scope] }

/-- `SymbolTable::exit_scope`: pop the current scope and archive it (the
Rust method panics on an empty stack; that unreachable state is left
unchanged here). -/
def exit_scope (t : SymbolTable) : SymbolTable :=
  match t.scopes.getLast? with
  | some scope =>
    { t with scopes := t.scopes.dropLast, all_scopes := t.all_scopes ++ [scope] }
  | Option.none => t

/-- `SymbolTable::add_symbol`: when the current scope already holds the
name, the existing declarations are appended AFTER the incoming node's
declarations (`symbol_node.declarations.extend(existing.declarations)`),
then the map entry is replaced.  (The Rust method panics on an empty scope
stack; that unreachable state is left unchanged here.) -/
def add_symbol (t : SymbolTable) (symbol_node : SymbolTableNode) : SymbolTable :=
  match t.scopes.getLast? with
  | some scope =>
    let symbol_node :=
      match symbolsGet scope.symbols symbol_node.name with
      | some existing_symbol =>
        { symbol_node with
          declarations := symbol_node.declarations ++ existing_symbol.declarations }
      | Option.none => symbol_node
    let scope := { scope with symbols := symbolsInsert scope.symbols symbol_node.name symbol_node }
    { t with scopes := t.scopes.dropLast ++ [scope] }
  | Option.none => t

/-- The scope chain the lookup claim describes, written from the claim's
words: starting from a scope, follow `parent` links (resolved by id
against the archive, as `lookupLoop` resolves them), listing the scopes
visited; a parent-less scope ends the chain.  Used to state the amended
lookup contract declaratively (`first symbol found` becomes
`List.findSome?` over this chain). -/
def specParentChain (t : SymbolTable) : Nat → Option SymbolTableScope → List SymbolTableScope
  | 0, _ => []
  | _, Option.none => []
  | fuel + 1, some scope =>
    scope ::
      (if scope.parent = Option.none then []
       else
         specParentChain t fuel
           (match scope.parent with
            | some parent_id => (t.all_scopes.filter fun sc => sc.id = parent_id).getLast?
            | Option.none => t.global_scope?))

end SymbolTable

/-! ## Concrete instances used by the symbol-table claims -/

/-- A distinguishable declaration path (`module "mod"`, node `(k, k)`). -/
def declPath (k : Nat) : DeclarationPath := { module_name := "mod", node := { start := k, stop := k } }

/-- The bootstrap table with `x` declared once in the open module scope. -/
def tableOneX : SymbolTable :=
  (SymbolTable.global 0).1.add_symbol { name := "x", declarations := [.Variable (declPath 1)] }

/-- The table with `x` declared a second time in the same scope. -/
def tableTwoX : SymbolTable :=
  tableOneX.add_symbol { name := "x", declarations := [.Variable (declPath 2)] }

/-- The current (module) scope of `tableOneX`, written out. -/
def c3scope : SymbolTableScope :=
  { id := 1
    start_pos := 0
    symbol_table_type := .Module
    name := "global"
    symbols := [("x", { name := "x", declarations := [.Variable (declPath 1)] })]
    parent := some 0 }

/-- The lexer state after the failed scan of the unterminated string
`"ab` (starting mid-line): every character consumed. -/
def c8state : Lexer :=
  { source := ['\"', 'a', 'b']
    pos := 3
    current := 3
    current_line := 1
    start_of_line := false
    indent_stack := [0]
    nesting := 0
    fstring_stack := []
    inside_fstring_bracket := 0
    next_token_is_dedent := 0 }

/-! ## Span well-formedness of the token stream (for the stream claims)

The byte-offset bookkeeping of the lexer: `current` is the UTF-8 byte
offset of the character index `pos` (the two are advanced together by
`Lexer.next` only).  `Aligned` states that correspondence; `LexGe` is the
step relation every lexer helper satisfies: same source, forward movement
of both cursors, alignment preserved. -/

/-- The UTF-8 byte length of a character list. -/
def utf8Length : List Char → Nat
  | [] => 0
  | c :: cs => utf8Len c + utf8Length cs

/-- The byte cursor `current` sits exactly at the byte offset of the
character cursor `pos`. -/
def Aligned (s : Lexer) : Prop :=
  s.current = utf8Length (s.source.take s.pos)

/-- One or more lexer steps: the source is untouched, both cursors only
move forward, and their correspondence is preserved. -/
def LexGe (s s' : Lexer) : Prop :=
  s'.source = s.source ∧ s.pos ≤ s'.pos ∧ s.current ≤ s'.current ∧ (Aligned s → Aligned s')

/-- The span conditions of the stream claim, checked along a token list:
no `WhiteSpace` kind, every span ordered (`start ≤ stop`), inside the
byte length of the source (`stop ≤ bound`), and starting no earlier than
the previous token's `stop`. -/
def spansOk (bound : Nat) : Nat → List Token → Bool
  | _, [] => true
  | prev, t :: ts =>
    (!(t.kind == Kind.WhiteSpace) && decide (prev ≤ t.start) && decide (t.start ≤ t.stop)
      && decide (t.stop ≤ bound)) && spansOk bound t.stop ts

/-! ## The indentation machine (for the indentation-balance claim) -/

/-- The number of leading spaces of a character list. -/
def spacesPrefix (l : List Char) : Nat := (l.takeWhile fun c => c = ' ').length

/-- The shape of the indent stack: non-empty, strictly decreasing from the
top (head), ending in the base level `0`. -/
def StackDesc : List Nat → Prop
  | [] => False
  | [x] => x = 0
  | x :: y :: rest => y < x ∧ StackDesc (y :: rest)

/-- The indentation potential of a lexer state: levels pushed above the
base plus dedent tokens still pending.  Each `Indent` token raises it by
one, each `Dedent` token lowers it by one, and it is `0` exactly when the
stack is back to `[0]` with no dedent owed. -/
def phi (s : Lexer) : Nat := (s.indent_stack.length - 1) + s.next_token_is_dedent

/-- The state invariant maintained while lexing an indentation-only
source (spaces and newlines, newline-terminated, shorter than 256
characters): the bookkeeping fields stay at their initial values, the
stack keeps its shape, the potential is bounded by the consumed prefix,
and away from a line start the cursor sits on a newline — or at the end
of the source with everything already unwound. -/
def IndentInv (s : Lexer) : Prop :=
  (∀ c ∈ s.source, c = ' ' ∨ c = '
') ∧
  s.source.getLast? = some '
' ∧
  s.source.length < 256 ∧
  s.nesting = 0 ∧
  s.fstring_stack = [] ∧
  StackDesc s.indent_stack ∧
  s.pos ≤ s.source.length ∧
  phi s ≤ s.pos ∧
  (s.start_of_line = false →
    s.source.get? s.pos = some '
' ∨
      (s.pos = s.source.length ∧ s.indent_stack = [0]))

/-! ## Claim theorems -/

/-- Inserting under a key always makes that key map to the inserted node
(`HashMap::insert` followed by `HashMap::get`, on the association-list
model). -/
theorem symbolsGet_symbolsInsert (m : SymbolMap) (k : String) (v : SymbolTableNode) :
    symbolsGet (symbolsInsert m k v) k = some v := by
  induction m with
  | nil => simp [symbolsInsert, symbolsGet]
  | cons p rest ih =>
    by_cases hp : p.1 = k
    · simp [symbolsInsert, symbolsGet, List.find?_cons_of_pos, hp]
    · by_cases hr : (rest.find? fun q => q.1 = k).isSome
      · have ih' : symbolsGet (rest.map fun q => if q.1 = k then (k, v) else q) k = some v := by
          simpa [symbolsInsert, hr] using ih
        simp [symbolsInsert, symbolsGet, List.find?_cons_of_neg, hp, hr] at ih' ⊢
        simpa [hp] using ih'
      · have ih' : symbolsGet (rest ++ [(k, v)]) k = some v := by
          simpa [symbolsInsert, hr] using ih
        simp [symbolsInsert, symbolsGet, hp, hr] at ih' ⊢
        simpa [hp] using ih'

/-- C1: the claim says `peek_token` leaves every mutable lexer field
unchanged.  On the input `"    x"` the peeked token is the same token the
next `next_token` call returns, but the indent stack — the one mutable
field the Rust snapshot/restore in `Lexer::peek_token` forgets — grows
from `[0]` to `[4, 0]`: the peek is not side-effect-free. -/
theorem C1_peek_token_mutates_indent_stack :
    (Lexer.new "    x").peek_token.1 = (Lexer.new "    x").next_token.1 ∧
    (Lexer.new "    x").indent_stack = [0] ∧
    (Lexer.new "    x").peek_token.2.indent_stack = [4, 0] := by
  refine ⟨rfl, rfl, rfl⟩

set_option smartUnfolding false in
/-- C2: the claim (and the comment over `Parser::parse_starred_expression`)
says `(a,)` is a one-element tuple.  The code parses `"(a,)"` to the bare
name `a` with no recorded error, exactly as it parses `"(a)"`: the
`seen_comma` flag is only set after a further element is parsed, so the
loop's `break` on the trailing `)` loses the comma. -/
theorem C2_single_element_tuple_lost :
    (Parser.parseModule 40 "(a,)").1 =
      .ok { node := { start := 0, stop := 4 },
            body := [.ExpressionStatement (.Name { start := 1, stop := 2 } "a")] } ∧
    (Parser.parseModule 40 "(a,)").2.errors = [] ∧
    (Parser.parseModule 40 "(a)").1 =
      .ok { node := { start := 0, stop := 3 },
            body := [.ExpressionStatement (.Name { start := 1, stop := 2 } "a")] } := by
  refine ⟨rfl, rfl, rfl⟩

set_option smartUnfolding false in
/-- C5: the claim says `parse()` returns a `Module` for every input
without panicking.  On `"del 1"` the target list is the constant `1`, and
`Parser::parse_target` hits its `_ => panic!("invalid target")` arm: the
parse unwinds instead of returning a module. -/
theorem C5_parse_panics_on_del_of_literal :
    (Parser.parseModule 40 "del 1").1 = .panicked "invalid target" := by
  exact rfl

/-- C6 counterexample: `"    "` is an indentation-only input, yet lexing
it to `Eof` produces one `Indent` and no `Dedent`, and the indent stack
ends as `[4, 0]`, not `[0]`: without a trailing newline the dedents at
end-of-input are never emitted. -/
theorem C6_indent_only_counterexample :
    ¬ (((Lexer.lexAllF 10 (Lexer.new "    ")).1.countP fun t => t.kind == Kind.Indent) =
         ((Lexer.lexAllF 10 (Lexer.new "    ")).1.countP fun t => t.kind == Kind.Dedent) ∧
       (Lexer.lexAllF 10 (Lexer.new "    ")).2.indent_stack = [0]) := by
  decide

set_option smartUnfolding false in
/-- C7 counterexample: the claim says the single `FStringMiddle` token of
`f"\x7b\x7bliteral\x7d\x7d"` carries the text `\x7bliteral\x7d`.  It is false: the token's
value is the raw source slice `\x7b\x7bliteral\x7d\x7d`, with both braces doubled
(`parse_token_value` slices the source without collapsing `\x7b\x7b`). -/
theorem C7_fstring_middle_value_counterexample :
    ((Lexer.lexAllF 100 (Lexer.new "f\"\x7b\x7bliteral\x7d\x7d\"")).1.all fun t =>
      !(t.kind == Kind.FStringMiddle) || t.value == TokenValue.str "\x7bliteral\x7d") = false := by
  decide

set_option smartUnfolding false in
/-- C7 amended: lexing `f"\x7b\x7bliteral\x7d\x7d"` gives `FStringStart`, one
`FStringMiddle` whose value is the raw text `\x7b\x7bliteral\x7d\x7d` (braces still
doubled), `FStringEnd`, then `Eof`, and no `LeftBracket` token is ever
produced: the doubled braces never open an interpolation bracket. -/
theorem C7_fstring_double_brace_stream :
    (Lexer.lexAllF 100 (Lexer.new "f\"\x7b\x7bliteral\x7d\x7d\"")).1 =
      [{ kind := .FStringStart, value := .str "f\"", start := 0, stop := 2 },
       { kind := .FStringMiddle, value := .str "\x7b\x7bliteral\x7d\x7d", start := 2, stop := 13 },
       { kind := .FStringEnd, value := .str "\"", start := 13, stop := 14 },
       { kind := .Eof, value := .none, start := 14, stop := 14 }] ∧
    ((Lexer.lexAllF 100 (Lexer.new "f\"\x7b\x7bliteral\x7d\x7d\"")).1.all fun t =>
      !(t.kind == Kind.LeftBracket)) = true := by
  decide

/-- C9 counterexample: the claim says every token returned by
`next_token` has a kind other than `Comment`.  Lexing `"# a"` returns a
`Comment` token: `next_token` skips only `WhiteSpace` kinds, comments are
handed to the caller. -/
theorem C9_comment_token_counterexample :
    ((Lexer.lexAllF 10 (Lexer.new "# a")).1.any fun t => t.kind == Kind.Comment) = true := by
  decide

set_option smartUnfolding false in
/-- C10: parsing `"()"` through `Parser::parse_paren_form_or_generator`
yields `Ok` of a `Tuple` with an empty element list (spanning the opening
parenthesis), and records no error: empty parentheses are the zero-element
tuple, not an error and not a bare expression. -/
theorem C10_empty_parens_empty_tuple :
    (Parser.parse_paren_form_or_generator 30 (Parser.new "()" "")).1 =
      .ok (.Tuple { start := 0, stop := 1 } []) ∧
    (Parser.parse_paren_form_or_generator 30 (Parser.new "()" "")).2.errors = [] := by
  exact ⟨rfl, rfl⟩

/-- C3 counterexample: declaring `x` twice in the open scope does not
order the declarations earlier-first: the second `add_symbol` stores
`[second, first]`, the incoming declaration in front of the existing
one. -/
theorem C3_add_symbol_order_counterexample :
    (tableTwoX.current_scope?.bind fun sc => symbolsGet sc.symbols "x") =
      some { name := "x", declarations := [.Variable (declPath 2), .Variable (declPath 1)] } ∧
    [Declaration.Variable (declPath 2), .Variable (declPath 1)] ≠
      [Declaration.Variable (declPath 1), .Variable (declPath 2)] := by
  exact ⟨rfl, by decide⟩

/-- C3 amended: when the current scope already holds the name,
`add_symbol` keeps every existing declaration, but the merged list puts
the incoming node's declarations first and the previously recorded ones
after them (`symbol_node.declarations.extend(existing.declarations)`),
the reverse of the earlier-declaration-first order the claim states. -/
theorem C3_add_symbol_prepends_new_declarations
    (t : SymbolTable) (scope : SymbolTableScope) (node existing : SymbolTableNode)
    (hs : t.scopes.getLast? = some scope)
    (he : symbolsGet scope.symbols node.name = some existing) :
    ((t.add_symbol node).current_scope?.bind fun sc => symbolsGet sc.symbols node.name) =
      some { node with declarations := node.declarations ++ existing.declarations } := by
  unfold SymbolTable.add_symbol
  rw [hs]
  simp [he, SymbolTable.current_scope?, List.getLast?_concat, symbolsGet_symbolsInsert]

/-- C3 witness: the amended theorem applied to the table where `x` is
declared once and then redeclared. -/
theorem C3_add_symbol_prepends_new_declarations_witness :
    tableOneX.scopes.getLast? = some c3scope ∧
    symbolsGet c3scope.symbols "x" = some { name := "x", declarations := [.Variable (declPath 1)] } ∧
    ((tableOneX.add_symbol { name := "x", declarations := [.Variable (declPath 2)] }).current_scope?.bind
        fun sc => symbolsGet sc.symbols "x") =
      some { name := "x", declarations := [.Variable (declPath 2), .Variable (declPath 1)] } :=
  ⟨rfl, rfl,
    C3_add_symbol_prepends_new_declarations tableOneX c3scope
      { name := "x", declarations := [.Variable (declPath 2)] }
      { name := "x", declarations := [.Variable (declPath 1)] } rfl rfl⟩

/-- C4 counterexample: in `tableOneX` the archive is empty, so a
positional lookup's scope chain is exhausted immediately
(`innermost_scope` is `none`); the claim then demands `None`, but
`lookup_in_scope` falls through to the currently open scope and finds
`x` there. -/
theorem C4_position_lookup_fallback_counterexample :
    tableOneX.innermost_scope 5 = Option.none ∧
    tableOneX.lookup_in_scope { name := "x", position := some 5 } =
      some { name := "x", declarations := [.Variable (declPath 1)] } :=
  ⟨rfl, rfl⟩

/-- The archived-parent walk of `lookup_in_scope` returns exactly the
first symbol found along the visited scope chain (`List.findSome?` over
`specParentChain`). -/
theorem lookupLoop_eq_findSome (t : SymbolTable) (name : String) :
    ∀ (fuel : Nat) (os : Option SymbolTableScope),
      SymbolTable.lookupLoop t name fuel os =
        ((SymbolTable.specParentChain t fuel os).findSome? fun sc =>
          symbolsGet sc.symbols name) := by
  intro fuel
  induction fuel with
  | zero => intro os; cases os <;> rfl
  | succ fuel ih =>
    intro os
    cases os with
    | none => rfl
    | some scope =>
      simp only [SymbolTable.lookupLoop, SymbolTable.specParentChain, List.findSome?_cons]
      cases hg : symbolsGet scope.symbols name with
      | some symbol => simp
      | none =>
        by_cases hp : scope.parent = Option.none
        · simp [hp]
        · simp only [hp, if_false, List.findSome?_cons, hg, ih]

/-- C4 amended: a positional lookup returns the first symbol found along
the parent chain of the innermost archived scope, and, when that chain is
exhausted without a hit, falls back to the currently open scope (rather
than returning `None`); a lookup without a position consults exactly the
currently open scope. -/
theorem C4_lookup_in_scope_characterization (t : SymbolTable) (name : String) (pos : Nat) :
    (t.lookup_in_scope { name := name, position := some pos } =
      (((SymbolTable.specParentChain t (t.all_scopes.length + 1)
            (t.innermost_scope pos)).findSome? fun sc => symbolsGet sc.symbols name).orElse
        fun _ => t.current_scope?.bind fun sc => symbolsGet sc.symbols name)) ∧
    (t.lookup_in_scope { name := name, position := Option.none } =
      t.current_scope?.bind fun sc => symbolsGet sc.symbols name) := by
  constructor
  · show (match SymbolTable.lookupLoop t name (t.all_scopes.length + 1) (t.innermost_scope pos) with
        | some symbol => some symbol
        | Option.none => t.current_scope?.bind fun scope => symbolsGet scope.symbols name) = _
    rw [lookupLoop_eq_findSome]
    cases (SymbolTable.specParentChain t (t.all_scopes.length + 1)
        (t.innermost_scope pos)).findSome? (fun sc => symbolsGet sc.symbols name) with
    | some s => rfl
    | none => rfl
  · show (match t.current_scope?.bind fun scope => symbolsGet scope.symbols name with
        | some symbol => some symbol
        | Option.none => t.current_scope?.bind fun scope => symbolsGet scope.symbols name) =
      t.current_scope?.bind fun sc => symbolsGet sc.symbols name
    cases t.current_scope?.bind fun scope => symbolsGet scope.symbols name with
    | some s => rfl
    | none => rfl

/-- C8: on every lexer state with no pending dedent whose internal lexing
step (`next_kind`) fails, `next_token` returns a token of kind `Error`
carrying the error's message as its string value, never unwinding; the
token starts at the old offset and ends at the new offset — minus one in
the `StringNotTerminated` case, the position of the last consumed
character. -/
theorem C8_lex_error_becomes_error_token (s : Lexer) (e : LexError) (s' : Lexer)
    (hd : s.next_token_is_dedent = 0)
    (hk : s.next_kind = (.error e, s')) :
    s.next_token =
      ({ kind := .Error, value := .str e.toString, start := s.current,
         stop := if e = .StringNotTerminated then s'.current - 1 else s'.current }, s') := by
  have h2 : 2 * s.msr + 2 = (2 * s.msr + 1) + 1 := rfl
  unfold Lexer.next_token
  rw [h2]
  simp only [Lexer.next_tokenF, hd, hk, gt_iff_lt, lt_self_iff_false, if_false]
  cases e <;> simp

/-- C8 witness: the theorem applied to the unterminated string `"ab`
scanned from the middle of a line. -/
theorem C8_lex_error_becomes_error_token_witness :
    ({ Lexer.new "\"ab" with start_of_line := false } : Lexer).next_token_is_dedent = 0 ∧
    ({ Lexer.new "\"ab" with start_of_line := false } : Lexer).next_kind =
      (.error .StringNotTerminated, c8state) ∧
    ({ Lexer.new "\"ab" with start_of_line := false } : Lexer).next_token =
      ({ kind := .Error, value := .str "string is not terminated", start := 0, stop := 2 },
        c8state) :=
  ⟨rfl, rfl,
    C8_lex_error_becomes_error_token { Lexer.new "\"ab" with start_of_line := false }
      .StringNotTerminated c8state rfl rfl⟩

/-! ### Step lemmas for the lexer helpers -/

theorem utf8Length_take_le (l : List Char) : ∀ n, utf8Length (l.take n) ≤ utf8Length l := by
  induction l with
  | nil => intro n; simp [utf8Length]
  | cons c cs ih =>
    intro n
    cases n with
    | zero => simp [utf8Length]
    | succ n => simpa [utf8Length] using ih n

theorem utf8Length_take_succ (l : List Char) :
    ∀ n c, l.get? n = some c →
      utf8Length (l.take (n + 1)) = utf8Length (l.take n) + utf8Len c := by
  induction l with
  | nil => intro n c h; cases h
  | cons d ds ih =>
    intro n c h
    cases n with
    | zero =>
      cases h
      simp [utf8Length]
    | succ n =>
      have := ih n c h
      simp [utf8Length, this]
      omega

theorem lexGe_rfl (s : Lexer) : LexGe s s :=
  ⟨rfl, Nat.le_refl _, Nat.le_refl _, id⟩

theorem lexGe_trans {s t u : Lexer} (h1 : LexGe s t) (h2 : LexGe t u) : LexGe s u :=
  ⟨h2.1.trans h1.1, h1.2.1.trans h2.2.1, h1.2.2.1.trans h2.2.2.1,
    fun ha => h2.2.2.2 (h1.2.2.2 ha)⟩

theorem next_eq_some_fields {s s' : Lexer} {c : Char} (h : s.next = (some c, s')) :
    s'.source = s.source ∧ s'.pos = s.pos + 1 ∧ s'.current = s.current + utf8Len c ∧
      s.source.get? s.pos = some c := by
  unfold Lexer.next at h
  cases hp : s.peek with
  | none => rw [hp] at h; cases h
  | some d =>
    rw [hp] at h
    cases h
    exact ⟨rfl, rfl, rfl, hp⟩

theorem lexGe_next (s : Lexer) : LexGe s (s.next).2 := by
  unfold Lexer.next
  cases hp : s.peek with
  | none => exact lexGe_rfl s
  | some c =>
    refine ⟨rfl, Nat.le_succ _, Nat.le_add_right _ _, fun ha => ?_⟩
    unfold Aligned at ha ⊢
    simp only
    rw [utf8Length_take_succ s.source s.pos c hp, ha]

theorem lexGe_double_next (s : Lexer) : LexGe s (s.double_next).2 :=
  lexGe_trans (lexGe_next s) (lexGe_next _)

theorem aligned_current_le {s : Lexer} (h : Aligned s) :
    s.current ≤ utf8Length s.source := by
  rw [h]; exact utf8Length_take_le s.source s.pos

theorem aligned_new (src : String) : Aligned (Lexer.new src) := rfl

theorem lexGe_of_next_eq {s s' : Lexer} {o : Option Char} (h : s.next = (o, s')) :
    LexGe s s' := by
  have hg := lexGe_next s
  rw [h] at hg
  exact hg

theorem lexGe_of_eq {α : Type} {s : Lexer} {p : α × Lexer} (hg : LexGe s p.2)
    {r : α} {s' : Lexer} (h : p = (r, s')) : LexGe s s' := by
  cases h; exact hg

theorem lexGe_msr_le {s s' : Lexer} (h : LexGe s s') : s'.msr ≤ s.msr := by
  show s'.source.length - s'.pos ≤ s.source.length - s.pos
  rw [h.1]
  exact Nat.sub_le_sub_left h.2.1 _

theorem lexGe_consume {s s0 : Lexer} {c : Char} (hnx : s.next = (some c, s0)) :
    LexGe s s0 ∧ s0.msr < s.msr ∧ s.current < s0.current := by
  obtain ⟨hsrc, hpos, hcur, hget⟩ := next_eq_some_fields hnx
  have hl := utf8Len_pos c
  have hlt : s.pos < s.source.length := by
    by_contra hge
    have : s.source.get? s.pos = Option.none := List.get?_eq_none.mpr (Nat.le_of_not_lt hge)
    rw [this] at hget; cases hget
  refine ⟨⟨hsrc, by omega, by omega, fun ha => ?_⟩, ?_, by omega⟩
  · show s0.current = utf8Length (s0.source.take s0.pos)
    rw [hsrc, hpos, hcur, utf8Length_take_succ s.source s.pos c hget, ha]
  · show s0.source.length - s0.pos < s.source.length - s.pos
    rw [hsrc, hpos]
    omega

theorem consume_then {s s0 s' : Lexer} {c : Char} {R : Prop} (hnx : s.next = (some c, s0))
    (h2 : LexGe s0 s') :
    LexGe s s' ∧ (R → s'.msr < s.msr ∧ s.current < s'.current) := by
  obtain ⟨h1, hm, hc⟩ := lexGe_consume hnx
  exact ⟨lexGe_trans h1 h2, fun _ =>
    ⟨Nat.lt_of_le_of_lt (lexGe_msr_le h2) hm, Nat.lt_of_lt_of_le hc h2.2.2.1⟩⟩

namespace Lexer

theorem commentLoop_lexGe : ∀ (fuel : Nat) (s : Lexer), LexGe s (commentLoop fuel s) := by
  intro fuel
  induction fuel with
  | zero => intro s; exact lexGe_rfl s
  | succ fuel ih =>
    intro s
    unfold commentLoop
    split
    · exact lexGe_rfl s
    · split
      · exact lexGe_rfl s
      · exact lexGe_trans (lexGe_next s) (ih _)

theorem extractIdLoop_lexGe : ∀ (fuel : Nat) (acc : List Char) (s : Lexer),
    LexGe s (extractIdLoop fuel acc s).2 := by
  intro fuel
  induction fuel with
  | zero => intro acc s; exact lexGe_rfl s
  | succ fuel ih =>
    intro acc s
    unfold extractIdLoop
    split
    · exact lexGe_rfl s
    · split
      · exact lexGe_trans (lexGe_next s) (ih _ _)
      · split
        · exact lexGe_trans (lexGe_next s) (ih _ _)
        · exact lexGe_rfl s

theorem skipStrSingle_lexGe : ∀ (fuel : Nat) (a b : Char) (s : Lexer),
    LexGe s (skipStrSingle fuel a b s).2 := by
  intro fuel
  induction fuel with
  | zero => intro a b s; exact lexGe_rfl s
  | succ fuel ih =>
    intro a b s
    unfold skipStrSingle
    split
    · rename_i s' heq
      exact lexGe_of_next_eq heq
    · rename_i c s' heq
      split
      · exact lexGe_of_next_eq heq
      · exact lexGe_trans (lexGe_of_next_eq heq) (ih _ _ _)

theorem skipStrTriple_lexGe : ∀ (fuel : Nat) (a b : Char) (s : Lexer),
    LexGe s (skipStrTriple fuel a b s).2 := by
  intro fuel
  induction fuel with
  | zero => intro a b s; exact lexGe_rfl s
  | succ fuel ih =>
    intro a b s
    unfold skipStrTriple
    split
    · rename_i s' heq
      exact lexGe_of_next_eq heq
    · rename_i c s' heq
      split
      · exact lexGe_trans (lexGe_of_next_eq heq) (lexGe_double_next _)
      · exact lexGe_trans (lexGe_of_next_eq heq) (ih _ _ _)

theorem skip_to_str_end_lexGe (q : Char) (s : Lexer) :
    LexGe s (skip_to_str_end q s).2 := by
  unfold skip_to_str_end
  split
  · exact lexGe_trans (lexGe_next s) (skipStrTriple_lexGe _ _ _ _)
  · exact skipStrSingle_lexGe _ _ _ _

theorem create_f_string_start_lexGe (q : Char) (s : Lexer) :
    LexGe s (create_f_string_start q s).2 := by
  unfold create_f_string_start
  split
  · exact lexGe_double_next s
  · exact lexGe_rfl s

theorem match_str_lexGe (id_start : Char) (s : Lexer) :
    LexGe s (match_str id_start s).2 := by
  unfold match_str
  repeat' first
  | intro h
  | split
  | (try simp only []
     split)
  all_goals
    first
    | exact lexGe_rfl _
    | exact lexGe_trans (lexGe_double_next _) (create_f_string_start_lexGe _ _)
    | exact lexGe_trans (lexGe_next _) (create_f_string_start_lexGe _ _)
    | (rename_i heq
       first
       | exact lexGe_trans (lexGe_double_next _) (lexGe_of_eq (skip_to_str_end_lexGe _ _) heq)
       | exact lexGe_trans (lexGe_next _) (lexGe_of_eq (skip_to_str_end_lexGe _ _) heq))

theorem extract_id_lexGe (c : Char) (s : Lexer) : LexGe s (extract_id c s).2 :=
  extractIdLoop_lexGe _ _ _

theorem match_id_keyword_lexGe (c : Char) (s : Lexer) :
    LexGe s (match_id_keyword c s).2 := by
  unfold match_id_keyword
  repeat' first
  | intro h
  | split
  | (try simp only []
     split)
  all_goals
    rename_i heq
    first
    | exact lexGe_of_eq (match_str_lexGe _ _) heq
    | exact lexGe_trans (lexGe_of_eq (match_str_lexGe _ _) heq) (extract_id_lexGe _ _)

theorem numBinLoop_lexGe : ∀ (fuel : Nat) (s : Lexer), LexGe s (numBinLoop fuel s).2 := by
  intro fuel
  induction fuel with
  | zero => intro s; exact lexGe_rfl s
  | succ fuel ih =>
    intro s
    unfold numBinLoop
    repeat' first
    | intro h
    | split
    | (try simp only []
       split)
    all_goals first
    | exact lexGe_rfl _
    | exact lexGe_trans (lexGe_next _) (ih _)

theorem numOctLoop_lexGe : ∀ (fuel : Nat) (s : Lexer), LexGe s (numOctLoop fuel s).2 := by
  intro fuel
  induction fuel with
  | zero => intro s; exact lexGe_rfl s
  | succ fuel ih =>
    intro s
    unfold numOctLoop
    repeat' first
    | intro h
    | split
    | (try simp only []
       split)
    all_goals first
    | exact lexGe_rfl _
    | exact lexGe_trans (lexGe_next _) (ih _)

theorem numHexLoop_lexGe : ∀ (fuel : Nat) (s : Lexer), LexGe s (numHexLoop fuel s).2 := by
  intro fuel
  induction fuel with
  | zero => intro s; exact lexGe_rfl s
  | succ fuel ih =>
    intro s
    unfold numHexLoop
    repeat' first
    | intro h
    | split
    | (try simp only []
       split)
    all_goals first
    | exact lexGe_rfl _
    | exact lexGe_trans (lexGe_next _) (ih _)

theorem numAfterDot_lexGe : ∀ (fuel : Nat) (b1 b2 : Bool) (s : Lexer),
    LexGe s (numAfterDot fuel b1 b2 s).2 := by
  intro fuel
  induction fuel with
  | zero => intro b1 b2 s; exact lexGe_rfl s
  | succ fuel ih =>
    intro b1 b2 s
    unfold numAfterDot
    repeat' first
    | intro h
    | split
    | (try simp only []
       split)
    all_goals first
    | exact lexGe_rfl _
    | exact lexGe_next _
    | exact lexGe_trans (lexGe_next _) (ih _ _ _)
    | exact lexGe_trans (lexGe_next _) (lexGe_trans (lexGe_next _) (ih _ _ _))
    | exact lexGe_trans (lexGe_next _) (lexGe_next _)

theorem numExpDigits_lexGe : ∀ (fuel : Nat) (s : Lexer), LexGe s (numExpDigits fuel s).2 := by
  intro fuel
  induction fuel with
  | zero => intro s; exact lexGe_rfl s
  | succ fuel ih =>
    intro s
    unfold numExpDigits
    repeat' first
    | intro h
    | split
    | (try simp only []
       split)
    all_goals first
    | exact lexGe_rfl _
    | exact lexGe_next _
    | exact lexGe_trans (lexGe_next _) (ih _)

theorem numDecLoop_lexGe : ∀ (fuel : Nat) (s : Lexer), LexGe s (numDecLoop fuel s).2 := by
  intro fuel
  induction fuel with
  | zero => intro s; exact lexGe_rfl s
  | succ fuel ih =>
    intro s
    unfold numDecLoop
    repeat' first
    | intro h
    | split
    | (try simp only []
       split)
    all_goals first
    | exact lexGe_rfl _
    | exact lexGe_next _
    | exact lexGe_trans (lexGe_next _) (ih _)
    | exact lexGe_trans (lexGe_next _) (numAfterDot_lexGe _ _ _ _)
    | exact lexGe_trans (lexGe_next _) (numExpDigits_lexGe _ _)
    | exact lexGe_trans (lexGe_next _) (lexGe_trans (lexGe_next _) (numExpDigits_lexGe _ _))
    | exact numExpDigits_lexGe _ _
    | exact lexGe_trans (lexGe_next _) (lexGe_trans (lexGe_rfl _) (numExpDigits_lexGe _ _))

theorem match_numeric_literal_lexGe (s : Lexer) :
    LexGe s (match_numeric_literal s).2 := by
  unfold match_numeric_literal
  repeat' first
  | intro h
  | split
  | (try simp only []
     split)
  all_goals first
  | exact numDecLoop_lexGe _ _
  | exact lexGe_trans (lexGe_next _) (numBinLoop_lexGe _ _)
  | exact lexGe_trans (lexGe_next _) (numOctLoop_lexGe _ _)
  | exact lexGe_trans (lexGe_next _) (numHexLoop_lexGe _ _)

theorem indentSpaces_lexGe : ∀ (fuel cnt : Nat) (s : Lexer),
    LexGe s (indentSpaces fuel cnt s).2 := by
  intro fuel
  induction fuel with
  | zero => intro cnt s; exact lexGe_rfl s
  | succ fuel ih =>
    intro cnt s
    unfold indentSpaces
    repeat' first
    | intro h
    | split
    | (try simp only []
       split)
    all_goals first
    | exact lexGe_rfl _
    | exact lexGe_trans (lexGe_next _) (ih _ _)

theorem match_indentation_lexGe (s : Lexer) :
    LexGe s (match_indentation s).2 := by
  unfold match_indentation
  repeat' first
  | intro h
  | split
  | (try simp only []
     split)
  all_goals exact indentSpaces_lexGe _ _ _

theorem strict_then {s s1 s' : Lexer} {c : Char} (hnx : s.next = (some c, s1))
    (h2 : LexGe s1 s') : s'.msr < s.msr ∧ s.current < s'.current := by
  obtain ⟨h1, hm, hc⟩ := lexGe_consume hnx
  exact ⟨Nat.lt_of_le_of_lt (lexGe_msr_le h2) hm, Nat.lt_of_lt_of_le hc h2.2.2.1⟩

theorem strict_compose {s s1 sX s' : Lexer} {c : Char} (hnx : s.next = (some c, s1))
    (hge : LexGe s1 sX) (hs : s'.msr < sX.msr ∧ sX.current < s'.current) :
    s'.msr < s.msr ∧ s.current < s'.current := by
  obtain ⟨h1, hm, hc⟩ := lexGe_consume hnx
  have h4 := lexGe_msr_le hge
  have h5 := hge.2.2.1
  exact ⟨by omega, by omega⟩

theorem next_of_peek {s : Lexer} {c : Char} (h : s.peek = some c) :
    s.next = (some c, (s.next).2) := by
  unfold Lexer.next
  rw [h]

theorem fstringLoop_lexGe : ∀ (fuel : Nat) (consumed : String) (s : Lexer),
    LexGe s (fstringLoop fuel consumed s).2 := by
  intro fuel
  induction fuel with
  | zero => intro consumed s; exact lexGe_rfl s
  | succ fuel ih =>
    intro consumed s
    unfold fstringLoop
    rcases hnx : s.next with ⟨o, s1⟩
    cases o with
    | none => simp only [hnx]; exact lexGe_of_next_eq hnx
    | some curr =>
      simp only [hnx]
      have base := lexGe_of_next_eq hnx
      repeat' first
      | intro h
      | split
      | (try simp only []
         split)
      all_goals first
      | exact base
      | exact lexGe_trans base (lexGe_double_next _)
      | exact lexGe_trans base (ih _ _)
      | exact lexGe_trans base (lexGe_trans (lexGe_double_next _) (ih _ _))

theorem fstringLoop_some_strict : ∀ (fuel : Nat) (consumed : String) (s : Lexer)
    (k : Kind) (s' : Lexer), fstringLoop fuel consumed s = (some k, s') →
      s'.msr < s.msr ∧ s.current < s'.current := by
  intro fuel
  induction fuel with
  | zero =>
    intro consumed s k s' h
    unfold fstringLoop at h
    simp at h
  | succ fuel ih =>
    intro consumed s k s' h
    unfold fstringLoop at h
    rcases hnx : s.next with ⟨o, s1⟩
    rw [hnx] at h
    cases o with
    | none => simp at h
    | some curr =>
      simp only [] at h
      repeat' split at h
      all_goals first
      | (cases h; exact strict_then hnx (lexGe_rfl _))
      | (cases h; exact strict_then hnx (lexGe_double_next _))
      | exact strict_compose hnx (lexGe_rfl _) (ih _ _ _ _ h)
      | exact strict_compose hnx (lexGe_double_next _) (ih _ _ _ _ h)
      | simp at h

theorem next_fstring_token_lexGe (s : Lexer) : LexGe s (s.next_fstring_token).2 := by
  unfold next_fstring_token
  repeat' first
  | intro h
  | split
  | (try simp only []
     split)
  all_goals first
  | exact lexGe_rfl _
  | exact lexGe_next _
  | exact fstringLoop_lexGe _ _ _

theorem next_fstring_token_some_strict (s : Lexer) (k : Kind) (s' : Lexer)
    (h : s.next_fstring_token = (some k, s')) :
    s'.msr < s.msr ∧ s.current < s'.current := by
  unfold next_fstring_token at h
  repeat' split at h
  all_goals first
  | (rename_i hcond
     cases h
     exact strict_then (next_of_peek hcond.1) (lexGe_rfl _))
  | exact fstringLoop_some_strict _ _ _ _ _ h
  | simp at h

theorem parse_token_value_fields (k : Kind) (v : String) (s : Lexer) :
    (parse_token_value k v s).2.source = s.source ∧ (parse_token_value k v s).2.pos = s.pos ∧
      (parse_token_value k v s).2.current = s.current := by
  cases k <;>
    first
    | exact ⟨rfl, rfl, rfl⟩
    | (unfold parse_token_value
       simp only []
       split <;> exact ⟨rfl, rfl, rfl⟩)

theorem parse_token_value_lexGe (k : Kind) (v : String) (s : Lexer) :
    LexGe s (parse_token_value k v s).2 := by
  obtain ⟨h1, h2, h3⟩ := parse_token_value_fields k v s
  refine ⟨h1, Nat.le_of_eq h2.symm, Nat.le_of_eq h3.symm, fun ha => ?_⟩
  show (parse_token_value k v s).2.current =
    utf8Length ((parse_token_value k v s).2.source.take (parse_token_value k v s).2.pos)
  rw [h1, h2, h3]
  exact ha

theorem match_indentation_lexGe_of {s : Lexer} {r : Except LexError (Option Kind)}
    {s' : Lexer} (h : s.match_indentation = (r, s')) : LexGe s s' :=
  lexGe_of_eq (match_indentation_lexGe s) h

theorem mainLoopArmE_lexGe (rec : Lexer → Except LexError Kind × Lexer)
    (hrec : ∀ t, LexGe t (rec t).2) (c : Char) (s1 : Lexer) :
    LexGe s1 (mainLoopArmE rec c s1).2 := by
  unfold mainLoopArmE
  repeat' first
  | split
  | intro h
  | (try simp only []
     split)
  all_goals first
  | exact lexGe_rfl _
  | exact lexGe_next _
  | exact lexGe_double_next _
  | exact hrec _

theorem mainLoopArmD2_lexGe (rec : Lexer → Except LexError Kind × Lexer)
    (hrec : ∀ t, LexGe t (rec t).2) (c : Char) (s1 : Lexer) :
    LexGe s1 (mainLoopArmD2 rec c s1).2 := by
  unfold mainLoopArmD2
  repeat' first
  | split
  | intro h
  | (try simp only []
     split)
  all_goals first
  | exact lexGe_rfl _
  | exact lexGe_next _
  | exact lexGe_double_next _
  | exact commentLoop_lexGe _ _
  | exact mainLoopArmE_lexGe _ hrec _ _

theorem mainLoopArmD_lexGe (rec : Lexer → Except LexError Kind × Lexer)
    (hrec : ∀ t, LexGe t (rec t).2) (c : Char) (s1 : Lexer) :
    LexGe s1 (mainLoopArmD rec c s1).2 := by
  unfold mainLoopArmD
  repeat' first
  | split
  | intro h
  | (try simp only []
     split)
  all_goals first
  | exact lexGe_rfl _
  | exact lexGe_next _
  | exact lexGe_double_next _
  | exact commentLoop_lexGe _ _
  | exact mainLoopArmD2_lexGe _ hrec _ _

theorem mainLoopArmC_lexGe (rec : Lexer → Except LexError Kind × Lexer)
    (hrec : ∀ t, LexGe t (rec t).2) (c : Char) (s1 : Lexer) :
    LexGe s1 (mainLoopArmC rec c s1).2 := by
  unfold mainLoopArmC
  repeat' first
  | split
  | intro h
  | (try simp only []
     split)
  all_goals first
  | exact lexGe_rfl _
  | exact lexGe_next _
  | exact lexGe_double_next _
  | exact hrec _
  | exact mainLoopArmD_lexGe _ hrec _ _

theorem mainLoopArmB_lexGe (rec : Lexer → Except LexError Kind × Lexer)
    (hrec : ∀ t, LexGe t (rec t).2) (c : Char) (s1 : Lexer) :
    LexGe s1 (mainLoopArmB rec c s1).2 := by
  unfold mainLoopArmB
  repeat' first
  | split
  | intro h
  | (try simp only []
     split)
  all_goals first
  | exact lexGe_rfl _
  | exact lexGe_next _
  | exact lexGe_double_next _
  | exact mainLoopArmC_lexGe _ hrec _ _

theorem mainLoopArm_lexGe (rec : Lexer → Except LexError Kind × Lexer)
    (hrec : ∀ t, LexGe t (rec t).2) (c : Char) (s1 : Lexer) :
    LexGe s1 (mainLoopArm rec c s1).2 := by
  unfold mainLoopArm
  repeat' first
  | split
  | intro h
  | (try simp only []
     split)
  all_goals first
  | exact lexGe_rfl _
  | exact lexGe_next _
  | exact lexGe_double_next _
  | exact match_numeric_literal_lexGe _
  | exact match_id_keyword_lexGe _ _
  | exact mainLoopArmB_lexGe _ hrec _ _
  | (rename_i heq
     exact lexGe_of_eq (skip_to_str_end_lexGe _ _) heq)

theorem mainLoopF_lexGe : ∀ (fuel : Nat) (s : Lexer), LexGe s (mainLoopF fuel s).2 := by
  intro fuel
  induction fuel with
  | zero => intro s; exact lexGe_rfl s
  | succ fuel ih =>
    intro s
    unfold mainLoopF
    split
    · rename_i s2 heq
      exact lexGe_of_next_eq heq
    · rename_i c s0 heq
      exact lexGe_trans (lexGe_of_next_eq heq) (mainLoopArm_lexGe _ ih _ _)

theorem mainLoopF_strict : ∀ (fuel : Nat) (s : Lexer),
    (mainLoopF fuel s).1 ≠ .ok .Eof →
      (mainLoopF fuel s).2.msr < s.msr ∧ s.current < (mainLoopF fuel s).2.current := by
  intro fuel
  cases fuel with
  | zero => intro s habs; exact absurd rfl habs
  | succ fuel =>
    intro s
    unfold mainLoopF
    split
    · intro habs
      exact absurd rfl habs
    · rename_i c s0 heq
      intro hne
      exact strict_then heq (mainLoopArm_lexGe _ (mainLoopF_lexGe fuel) _ _)

theorem match_indentation_error (s : Lexer) (e : LexError) (s' : Lexer)
    (h : s.match_indentation = (.error e, s')) :
    e = .UnindentDoesNotMatchAnyOuterIndentationLevel := by
  unfold match_indentation at h
  simp only [] at h
  repeat' split at h
  all_goals first
  | (cases h; rfl)
  | simp at h

theorem next_kind_rest_spec (s : Lexer) :
    LexGe s (s.next_kind_rest).2 ∧
    ((s.next_kind_rest).1 ≠ .ok .Eof →
      (s.next_kind_rest).2.msr < s.msr ∧ s.current < (s.next_kind_rest).2.current) := by
  unfold next_kind_rest mainLoop
  split
  · exact ⟨mainLoopF_lexGe _ _, mainLoopF_strict _ _⟩
  · split
    · rename_i k s2 heq
      exact ⟨lexGe_of_eq (next_fstring_token_lexGe _) heq,
        fun hne => next_fstring_token_some_strict _ _ _ heq⟩
    · rename_i s2 heq
      have base := lexGe_of_eq (next_fstring_token_lexGe _) heq
      have m2 := lexGe_msr_le base
      have c2 := base.2.2.1
      refine ⟨lexGe_trans base (mainLoopF_lexGe _ _), fun hne => ?_⟩
      obtain ⟨m1, c1⟩ := mainLoopF_strict _ _ hne
      exact ⟨by omega, by omega⟩

theorem next_kind_spec (s : Lexer) :
    LexGe s (s.next_kind).2 ∧
    ((s.next_kind).1 = .ok .WhiteSpace →
      2 * (s.next_kind).2.msr + (if (s.next_kind).2.start_of_line then 1 else 0) <
        2 * s.msr + (if s.start_of_line then 1 else 0)) ∧
    ((s.next_kind).1 = .error .StringNotTerminated → s.current < (s.next_kind).2.current) := by
  unfold next_kind
  split
  · rename_i hsol
    split
    · rename_i e s1 heq
      refine ⟨match_indentation_lexGe_of heq, fun habs => ?_, fun hsnt => ?_⟩
      · simp at habs
      · have he := match_indentation_error _ _ _ heq
        subst he
        exact absurd hsnt (by simp)
    · rename_i k s1 heq
      have base := match_indentation_lexGe_of heq
      have hm := lexGe_msr_le base
      refine ⟨base, fun hws => ?_, fun hsnt => ?_⟩
      · have e1 : ({ s1 with start_of_line := false } : Lexer).msr = s1.msr := rfl
        have e2 : (if ({ s1 with start_of_line := false } : Lexer).start_of_line then 1 else 0) = 0 :=
          rfl
        rw [e1, e2]
        omega
      · exact absurd hsnt (by simp)
    · rename_i s1 heq
      have base := match_indentation_lexGe_of heq
      have hm := lexGe_msr_le base
      have hc := base.2.2.1
      obtain ⟨g, st⟩ := next_kind_rest_spec s1
      refine ⟨lexGe_trans base g, fun hws => ?_, fun hsnt => ?_⟩
      · obtain ⟨m1, c1⟩ := st (by intro hcc; rw [hws] at hcc; cases hcc)
        have hf : (if (s1.next_kind_rest).2.start_of_line then 1 else 0) ≤ 1 := by
          split <;> omega
        omega
      · obtain ⟨m1, c1⟩ := st (by intro hcc; rw [hsnt] at hcc; cases hcc)
        omega
  · rename_i hsol
    obtain ⟨g, st⟩ := next_kind_rest_spec s
    refine ⟨g, fun hws => ?_, fun hsnt => ?_⟩
    · obtain ⟨m1, c1⟩ := st (by intro hcc; rw [hws] at hcc; cases hcc)
      have hf : (if (s.next_kind_rest).2.start_of_line then 1 else 0) ≤ 1 := by split <;> omega
      have hs0 : (if s.start_of_line then 1 else 0) = 0 := by rw [if_neg hsol]
      omega
    · obtain ⟨m1, c1⟩ := st (by intro hcc; rw [hsnt] at hcc; cases hcc)
      omega

theorem next_tokenF_spec : ∀ (fuel : Nat) (s : Lexer), Aligned s →
    2 * s.msr + (if s.start_of_line then 1 else 0) < fuel →
      (next_tokenF fuel s).1.kind ≠ .WhiteSpace ∧
      s.current ≤ (next_tokenF fuel s).1.start ∧
      (next_tokenF fuel s).1.start ≤ (next_tokenF fuel s).1.stop ∧
      (next_tokenF fuel s).1.stop ≤ (next_tokenF fuel s).2.current ∧
      LexGe s (next_tokenF fuel s).2 := by
  intro fuel
  induction fuel with
  | zero =>
    intro s hA hm
    exact absurd hm (Nat.not_lt_zero _)
  | succ fuel ih =>
    intro s hA hm
    unfold next_tokenF
    split
    · refine ⟨?_, Nat.le_refl _, Nat.le_refl _, Nat.le_refl _, lexGe_rfl _⟩
      show Kind.Dedent ≠ Kind.WhiteSpace
      decide
    · try simp only []
      split
      · rename_i e s1 heq
        obtain ⟨g, hwsm, hsnt⟩ := next_kind_spec s
        rw [heq] at g hsnt
        have gq : LexGe s s1 := g
        have hcur : s.current ≤ s1.current := gq.2.2.1
        cases e with
        | StringNotTerminated =>
          have hstrict : s.current < s1.current := hsnt rfl
          refine ⟨?_, Nat.le_refl _, ?_, ?_, gq⟩
          · show Kind.Error ≠ Kind.WhiteSpace
            decide
          · show s.current ≤ s1.current - 1
            omega
          · show s1.current - 1 ≤ s1.current
            omega
        | InvalidDigitInBinaryLiteral c =>
          refine ⟨?_, Nat.le_refl _, hcur, Nat.le_refl _, gq⟩
          show Kind.Error ≠ Kind.WhiteSpace
          decide
        | InvalidDigitInOctalLiteral c =>
          refine ⟨?_, Nat.le_refl _, hcur, Nat.le_refl _, gq⟩
          show Kind.Error ≠ Kind.WhiteSpace
          decide
        | InvalidDigitInHexadecimalLiteral c =>
          refine ⟨?_, Nat.le_refl _, hcur, Nat.le_refl _, gq⟩
          show Kind.Error ≠ Kind.WhiteSpace
          decide
        | InvalidDigitInDecimalLiteral =>
          refine ⟨?_, Nat.le_refl _, hcur, Nat.le_refl _, gq⟩
          show Kind.Error ≠ Kind.WhiteSpace
          decide
        | UnindentDoesNotMatchAnyOuterIndentationLevel =>
          refine ⟨?_, Nat.le_refl _, hcur, Nat.le_refl _, gq⟩
          show Kind.Error ≠ Kind.WhiteSpace
          decide
      · rename_i kind s1 heq
        obtain ⟨g, hwsm, hsnt⟩ := next_kind_spec s
        rw [heq] at g hwsm
        have gq : LexGe s s1 := g
        have hcur : s.current ≤ s1.current := gq.2.2.1
        split
        · rename_i hk
          have hA1 : Aligned s1 := gq.2.2.2 hA
          have hmeas : 2 * s1.msr + (if s1.start_of_line then 1 else 0) <
              2 * s.msr + (if s.start_of_line then 1 else 0) := hwsm (by rw [hk])
          obtain ⟨k1, k2, k3, k4, k5⟩ := ih s1 hA1 (by omega)
          exact ⟨k1, Nat.le_trans hcur k2, k3, k4, lexGe_trans gq k5⟩
        · rename_i hk
          obtain ⟨f1, f2, f3⟩ := parse_token_value_fields kind
            (s1.extract_raw_token_value s.pos) s1
          refine ⟨hk, Nat.le_refl _, ?_, Nat.le_refl _,
            lexGe_trans gq (parse_token_value_lexGe _ _ _)⟩
          show s.current ≤ (parse_token_value kind (s1.extract_raw_token_value s.pos) s1).2.current
          omega

theorem next_token_spec (s : Lexer) (hA : Aligned s) :
    (s.next_token).1.kind ≠ .WhiteSpace ∧
    s.current ≤ (s.next_token).1.start ∧
    (s.next_token).1.start ≤ (s.next_token).1.stop ∧
    (s.next_token).1.stop ≤ (s.next_token).2.current ∧
    LexGe s (s.next_token).2 := by
  unfold next_token
  have hflag : (if s.start_of_line then 1 else 0) ≤ 1 := by split <;> omega
  exact next_tokenF_spec _ s hA (by omega)

theorem lexAllF_spansOk : ∀ (fuel : Nat) (s : Lexer) (prev : Nat), Aligned s →
    prev ≤ s.current →
    spansOk (utf8Length s.source) prev (lexAllF fuel s).1 = true := by
  intro fuel
  induction fuel with
  | zero => intro s prev hA hp; rfl
  | succ fuel ih =>
    intro s prev hA hp
    unfold lexAllF
    obtain ⟨k1, k2, k3, k4, k5⟩ := next_token_spec s hA
    have hA2 : Aligned (s.next_token).2 := k5.2.2.2 hA
    have hbound : (s.next_token).2.current ≤ utf8Length s.source := by
      have hb := aligned_current_le hA2
      rwa [k5.1] at hb
    try simp only []
    split
    · simp only [spansOk, Bool.and_eq_true, decide_eq_true_eq, Bool.not_eq_true',
        beq_eq_false_iff_ne]
      exact ⟨⟨⟨⟨k1, Nat.le_trans hp k2⟩, k3⟩, by omega⟩, trivial⟩
    · have htail := ih (s.next_token).2 (s.next_token).1.stop hA2 k4
      rw [show (s.next_token).2.source = s.source from k5.1] at htail
      simp only [spansOk, Bool.and_eq_true, decide_eq_true_eq, Bool.not_eq_true',
        beq_eq_false_iff_ne]
      exact ⟨⟨⟨⟨k1, Nat.le_trans hp k2⟩, k3⟩, by omega⟩, htail⟩

theorem drop_cons_of_get : ∀ (l : List Char) (n : Nat) (c : Char),
    l.get? n = some c → l.drop n = c :: l.drop (n + 1) := by
  intro l
  induction l with
  | nil => intro n c h; cases h
  | cons d ds ih =>
    intro n c h
    cases n with
    | zero => cases h; rfl
    | succ n => simpa using ih n c h

theorem spacesPrefix_cons_space (t : List Char) :
    spacesPrefix (' ' :: t) = spacesPrefix t + 1 := by
  simp [spacesPrefix, List.takeWhile_cons]

theorem spacesPrefix_cons_newline (t : List Char) :
    spacesPrefix ('\n' :: t) = 0 := by
  simp [spacesPrefix, List.takeWhile_cons]

theorem indentSpaces_eval : ∀ (fuel cnt : Nat) (s : Lexer),
    (∀ c ∈ s.source, c = ' ' ∨ c = '\n') → s.msr < fuel →
    indentSpaces fuel cnt s =
      (cnt + spacesPrefix (s.source.drop s.pos),
       { s with pos := s.pos + spacesPrefix (s.source.drop s.pos),
                current := s.current + spacesPrefix (s.source.drop s.pos) }) := by
  intro fuel
  induction fuel with
  | zero =>
    intro cnt s halpha hm
    exact absurd hm (Nat.not_lt_zero _)
  | succ fuel ih =>
    intro cnt s halpha hm
    unfold indentSpaces
    rcases hp : s.peek with _ | c
    · have hdrop : s.source.drop s.pos = [] := by
        have hlen : s.source.length ≤ s.pos := List.get?_eq_none.mp hp
        exact List.drop_eq_nil_of_le hlen
      simp [hp, hdrop, spacesPrefix]
    · have hmem : c ∈ s.source := List.get?_mem hp
      have hdropc : s.source.drop s.pos = c :: s.source.drop (s.pos + 1) :=
        drop_cons_of_get _ _ _ hp
      have hnx : s.next = (some c, { s with pos := s.pos + 1, current := s.current + utf8Len c }) := by
        unfold Lexer.next
        rw [hp]
      rcases halpha c hmem with hc | hc
      · subst hc
        have hu : utf8Len ' ' = 1 := rfl
        have hmsr : ({ s with pos := s.pos + 1, current := s.current + 1 } : Lexer).msr < fuel := by
          show s.source.length - (s.pos + 1) < fuel
          have hplen : s.pos < s.source.length := peek_some_pos_lt hp
          show s.source.length - (s.pos + 1) < fuel
          have : s.msr < fuel + 1 := hm
          unfold Lexer.msr at this
          omega
        have halpha2 : ∀ d ∈ ({ s with pos := s.pos + 1, current := s.current + 1 } : Lexer).source,
            d = ' ' ∨ d = '\n' := halpha
        have := ih (cnt + 1) { s with pos := s.pos + 1, current := s.current + 1 } halpha2 hmsr
        simp only [hp, hnx, hu]
        rw [this, hdropc, spacesPrefix_cons_space]
        rw [if_neg (by decide : ¬ (' ' = '\t')), if_pos (by trivial)]
        have h1 : cnt + 1 + spacesPrefix (s.source.drop (s.pos + 1)) =
            cnt + (spacesPrefix (s.source.drop (s.pos + 1)) + 1) := by omega
        have h2 : s.pos + 1 + spacesPrefix (s.source.drop (s.pos + 1)) =
            s.pos + (spacesPrefix (s.source.drop (s.pos + 1)) + 1) := by omega
        have h3 : s.current + 1 + spacesPrefix (s.source.drop (s.pos + 1)) =
            s.current + (spacesPrefix (s.source.drop (s.pos + 1)) + 1) := by omega
        rw [h1, h2, h3]
      · subst hc
        simp only [hp]
        rw [hdropc, spacesPrefix_cons_newline]
        simp

end Lexer

set_option smartUnfolding false in
/-- C9 amended: every token produced by repeated `next_token` calls on a
fresh lexer has a kind other than `WhiteSpace` (`Comment` tokens, by the
counterexample, are returned to the caller), every token's `[start, stop)`
span is ordered and lies within the byte length of the source, and
consecutive tokens do not overlap: each token starts no earlier than the
previous token's end offset. -/
theorem C9_token_stream_wellformed (src : String) (fuel : Nat) :
    spansOk (utf8Length src.data) 0 ((Lexer.lexAllF fuel (Lexer.new src)).1) = true :=
  Lexer.lexAllF_spansOk fuel (Lexer.new src) 0 (aligned_new src) (Nat.zero_le _)

end Enderpy
